import Mathlib

/-!
Shallow embedding of the course-generation pipeline (orchestrator, stage
functions and the structured-text parsers) of the `course_gen` repository,
together with theorems settling the frozen claims about it.

Strings are modelled as `List Char` (`Str`).  The Python string operations
used by the source (`split`, `replace`, `strip`, `startswith`, `in`,
`split(sep, 1)`, `replace(old, new, 1)`) are implemented below with
structural recursion so that every definition is executable and concrete

instances can be settled by `decide` / `rfl`.  `pyStrip` trims the ASCII
whitespace characters recognised by Python `str.strip()`.
-/

abbrev Str := List Char

/-- Conversion from Lean string literals to the `Str` model. -/
def ts (s : String) : Str := s.toList

/-- Python whitespace (ASCII range), as used by `str.strip()`. -/
def pyIsSpace (c : Char) : Bool :=
  c = ' ' || c = '\t' || c = '\n' || c = '\r' || c = '\x0b' || c = '\x0c'

/-- Python `s.strip()`: drop whitespace from both ends. -/
def pyStrip (s : Str) : Str :=
  ((s.dropWhile pyIsSpace).reverse.dropWhile pyIsSpace).reverse

/-- Python `sub in s` (substring containment). -/
def pyContains (sub s : Str) : Bool := decide (sub <:+: s)

/-- Python `s.startswith(pre)`. -/
def pyStartsWith (pre s : Str) : Bool := pre.isPrefixOf s

/-- Prepend a character to the first chunk of a split result. -/
def consHead (c : Char) : List Str → List Str
  | [] => [[c]]
  | x :: xs => (c :: x) :: xs

/-- Worker for `pySplit`.  The `skip` counter consumes the remaining
characters of a separator occurrence that has just been matched, keeping
the recursion structural. -/
def splitGo (sep : Str) : Str → Nat → List Str
  | [], _ => [[]]
  | _ :: rest, Nat.succ k => splitGo sep rest k
  | c :: rest, 0 =>
    if sep.isPrefixOf (c :: rest) then
      [] :: splitGo sep rest (sep.length - 1)
    else
      consHead c (splitGo sep rest 0)

/-- Python `s.split(sep)` for a non-empty separator: split on every
non-overlapping occurrence, left to right. -/
def pySplit (sep s : Str) : List Str :=
  if sep.isEmpty then [s] else splitGo sep s 0

/-- Worker for `pyReplace`, same `skip` device as `splitGo`. -/
def replaceGo (old new : Str) : Str → Nat → Str
  | [], _ => []
  | _ :: rest, Nat.succ k => replaceGo old new rest k
  | c :: rest, 0 =>
    if old.isPrefixOf (c :: rest) then
      new ++ replaceGo old new rest (old.length - 1)
    else
      c :: replaceGo old new rest 0

/-- Python `s.replace(old, new)` for a non-empty `old`. -/
def pyReplace (old new s : Str) : Str :=
  if old.isEmpty then s else replaceGo old new s 0

/-- Split at the first occurrence of `sep`: returns the part before and the
part after that occurrence, or `none` when `sep` does not occur. -/
def splitFirstGo (sep : Str) : Str → Option (Str × Str)
  | [] => none
  | c :: rest =>
    if sep.isPrefixOf (c :: rest) then
      some ([], (c :: rest).drop sep.length)
    else
      (splitFirstGo sep rest).map (fun p => (c :: p.1, p.2))

/-- Python `s.split(sep, 1)`. -/
def pySplitOnce (sep s : Str) : List Str :=
  match splitFirstGo sep s with
  | none => [s]
  | some (a, b) => [a, b]

/-- Python `s.replace(old, new, 1)`. -/
def pyReplaceOnce (old new s : Str) : Str :=
  match splitFirstGo old s with
  | none => s
  | some (a, b) => a ++ new ++ b

/-- Python `[line.strip() for line in s.split("\n") if line.strip()]`:
the trimmed non-empty lines of `s`. -/
def pyCleanLines (s : Str) : List Str :=
  ((pySplit (ts "\n") s).filter (fun l => !(pyStrip l).isEmpty)).map pyStrip

/-- Result of `ResearchAgent._parse_research_result`. -/
structure ResearchData where
  summary : Str
  key_concepts : List Str
  resources : List Str
  insights : Str
deriving DecidableEq, Repr

/-- The dictionary returned by `ResearchAgent.research_topic`: either the
parsed research data or the `{"error": ...}` dictionary produced when the
generation call raises (the exception is caught inside `research_topic`). -/
inductive ResearchDict where
  | parsed (rd : ResearchData)
  | errDict (msg : Str)
deriving DecidableEq, Repr

/-- A lesson skeleton produced by the structure parser (`content` is the
empty placeholder). -/
structure LessonS where
  title : Str
  content : Str
deriving DecidableEq, Repr

/-- A module skeleton produced by the structure parser. -/
structure ModuleS where
  title : Str
  lessons : List LessonS
deriving DecidableEq, Repr

/-- Result of `StructureAgent._parse_structure_result`. -/
structure CourseStructure where
  course_title : Str
  course_description : Str
  modules : List ModuleS
  rationale : Str
deriving DecidableEq, Repr

/-- One filled lesson entry of `content_data` / the final course. -/
structure LessonContent where
  title : Str
  content : Str
  resources : List Str
deriving DecidableEq, Repr

/-- `content_data`: a Python dict from module title to the list of filled
lessons, modelled as an association list with unique keys in insertion
order. -/
abbrev ContentDict := List (Str × List LessonContent)

/-- A module of the final course dictionary built by `finalize_course`. -/
structure FinalModule where
  title : Str
  lessons : List LessonContent
deriving DecidableEq, Repr

/-- The `final_course` dictionary built by `finalize_course`. -/
structure FinalCourse where
  course_title : Str
  description : Str
  modules : List FinalModule
  references : List Str
deriving DecidableEq, Repr

/-- The public response type (app/models/course.py `CourseResponse`). -/
structure CourseResponse where
  course_title : Str
  description : Str
  modules : List FinalModule
  references : List Str
deriving DecidableEq, Repr

/-- Result of `ContentAgent._parse_content_result`. -/
structure ContentResult where
  content : Str
  resources : List Str
deriving DecidableEq, Repr

/-- The orchestrator `AgentState` (pydantic model in orchestrator.py). -/
structure AgentState where
  brief : Str
  target_audience : Option Str := none
  course_duration : Option Str := none
  research_data : Option ResearchDict := none
  course_structure : Option CourseStructure := none
  content_data : Option ContentDict := none
  final_course : Option FinalCourse := none
  error : Option Str := none
deriving DecidableEq, Repr

/-- The request body of `POST /api/courses/generate`. -/
structure CourseRequest where
  brief : Str
  target_audience : Option Str := none
  course_duration : Option Str := none
deriving DecidableEq, Repr

/-- The four recognised research sections, used as the `current_section`
cursor of `_parse_research_result`. -/
inductive RSection where
  | summary
  | key_concepts
  | resources
  | insights
deriving DecidableEq, Repr, Fintype

/-- One iteration of the section loop of
`ResearchAgent._parse_research_result`: dispatch on the four recognised
headers in their `elif` order, otherwise append the block to the currently
open section (continuation), otherwise drop the block. -/
def research_step (st : ResearchData × Option RSection) (sec : Str) :
    ResearchData × Option RSection :=
  let rd := st.1
  let cur := st.2
  if pyContains (ts "RESEARCH SUMMARY:") sec then
    ({ rd with summary := pyStrip (pyReplace (ts "RESEARCH SUMMARY:") [] sec) },
      some .summary)
  else if pyContains (ts "KEY CONCEPTS:") sec then
    ({ rd with key_concepts :=
        pyCleanLines (pyStrip (pyReplace (ts "KEY CONCEPTS:") [] sec)) },
      some .key_concepts)
  else if pyContains (ts "RESOURCES:") sec then
    ({ rd with resources :=
        pyCleanLines (pyStrip (pyReplace (ts "RESOURCES:") [] sec)) },
      some .resources)
  else if pyContains (ts "INSIGHTS:") sec then
    ({ rd with insights := pyStrip (pyReplace (ts "INSIGHTS:") [] sec) },
      some .insights)
  else
    match cur with
    | some .summary => ({ rd with summary := rd.summary ++ '\n' :: sec }, cur)
    | some .key_concepts =>
        ({ rd with key_concepts := rd.key_concepts ++ pyCleanLines sec }, cur)
    | some .resources =>
        ({ rd with resources := rd.resources ++ pyCleanLines sec }, cur)
    | some .insights => ({ rd with insights := rd.insights ++ '\n' :: sec }, cur)
    | none => (rd, cur)

/-- `ResearchAgent._parse_research_result`: split on blank lines and fold
`research_step` starting from the all-default record.  Total, so parsing
never raises. -/
def parse_research_result (result : Str) : ResearchData :=
  ((pySplit (ts "\n\n") result).foldl research_step (⟨[], [], [], []⟩, none)).1

/-- `ContentAgent._parse_content_result`. -/
def parse_content_result (result : Str) : ContentResult :=
  if pyContains (ts "CONTENT:") result && pyContains (ts "RESOURCES:") result then
    let parts := pySplit (ts "RESOURCES:") result
    if 2 ≤ parts.length then
      { content := pyStrip (pyReplace (ts "CONTENT:") [] (parts.getD 0 []))
        resources := pyCleanLines (pyStrip (parts.getD 1 [])) }
    else
      { content := [], resources := [] }
  else
    { content := result, resources := [] }

/-- The per-line lesson extraction of the module branch of
`StructureAgent._parse_structure_result`: a stripped line starting with
`- Lesson ` or `- ` is a lesson; its title is the part after the first
colon if one is present, otherwise the line with the leading `- `
removed; both stripped. -/
def parse_lesson_line (raw : Str) : Option LessonS :=
  let line := pyStrip raw
  if pyStartsWith (ts "- Lesson ") line || pyStartsWith (ts "- ") line then
    let ps := pySplitOnce (ts ":") line
    if 1 < ps.length then some ⟨pyStrip (ps.getD 1 []), []⟩
    else some ⟨pyStrip (pyReplaceOnce (ts "- ") [] line), []⟩
  else none

/-- One iteration of the lesson loop: append the lesson when the line is
recognised. -/
def lesson_fold_step (acc : List LessonS) (raw : Str) : List LessonS :=
  match parse_lesson_line raw with
  | some l => acc ++ [l]
  | none => acc

/-- The module branch of `StructureAgent._parse_structure_result`: the
(stripped) first line of the block is the module title, the remaining
lines are scanned for lessons. -/
def parse_module_block (s : Str) : ModuleS :=
  let lines := pySplit (ts "\n") s
  { title := pyStrip (lines.getD 0 [])
    lessons := (lines.drop 1).foldl lesson_fold_step [] }

/-- One iteration of the section loop of
`StructureAgent._parse_structure_result` (the block is stripped first,
then dispatched through the `elif` chain). -/
def structure_step (acc : CourseStructure) (sec : Str) : CourseStructure :=
  let s := pyStrip sec
  if pyContains (ts "COURSE TITLE:") s then
    { acc with course_title := pyStrip (pyReplace (ts "COURSE TITLE:") [] s) }
  else if pyContains (ts "COURSE DESCRIPTION:") s then
    { acc with course_description :=
        pyStrip (pyReplace (ts "COURSE DESCRIPTION:") [] s) }
  else if pyContains (ts "RATIONALE:") s then
    { acc with rationale := pyStrip (pyReplace (ts "RATIONALE:") [] s) }
  else if pyStartsWith (ts "MODULE ") s then
    { acc with modules := acc.modules ++ [parse_module_block s] }
  else acc

/-- `StructureAgent._parse_structure_result`. -/
def parse_structure_result (result : Str) : CourseStructure :=
  (pySplit (ts "\n\n") result).foldl structure_step ⟨[], [], [], []⟩

/-- The external generation collaborator: each stage call either returns a
text blob or raises (modelled as `Except`); content calls are keyed by
module and lesson title, the only inputs that vary per call. -/
structure GenOracle where
  genResearch : Except Str Str
  genStructure : Except Str Str
  genContent : Str → Str → Except Str Str

/-- External generation calls actually issued, in order. -/
inductive GenCall where
  | researchCall
  | structureCall
  | contentCall (module_title lesson_title : Str)
deriving DecidableEq, Repr

instance : DecidableEq (Except Str Str) := fun a b =>
  match a, b with
  | .ok x, .ok y =>
    if h : x = y then .isTrue (by rw [h]) else .isFalse (fun hc => h (Except.ok.inj hc))
  | .ok _, .error _ => .isFalse (fun hc => Except.noConfusion hc)
  | .error _, .ok _ => .isFalse (fun hc => Except.noConfusion hc)
  | .error x, .error y =>
    if h : x = y then .isTrue (by rw [h]) else .isFalse (fun hc => h (Except.error.inj hc))

/-- `ResearchAgent.research_topic`: the generation call is made; on success
its output is parsed, on failure the exception is caught and returned as
an `{"error": "Research failed: ..."}` dictionary (nothing is raised). -/
def research_topic (o : GenOracle) : ResearchDict :=
  match o.genResearch with
  | .ok text => .parsed (parse_research_result text)
  | .error e => .errDict (ts "Research failed: " ++ e)

/-- Orchestrator node `research_course_topic`: always calls the research
agent and stores its returned dictionary; the node never sets `error`
because `research_topic` never raises. -/
def research_course_topic (o : GenOracle) (state : AgentState) :
    AgentState × List GenCall :=
  ({ brief := state.brief
     target_audience := state.target_audience
     course_duration := state.course_duration
     research_data := some (research_topic o) }, [.researchCall])

/-- Orchestrator node `create_course_structure`: prerequisite check on
`research_data` (both the parsed dictionary and the error dictionary are
non-empty, hence truthy), then the structure agent runs the generation
call and parses, re-raising on failure, which the node converts into an
error state. -/
def create_course_structure (o : GenOracle) (state : AgentState) :
    AgentState × List GenCall :=
  match state.research_data with
  | none =>
    ({ brief := state.brief
       target_audience := state.target_audience
       course_duration := state.course_duration
       error := some (ts "No research data available for creating course structure") },
     [])
  | some rd =>
    match o.genStructure with
    | .ok text =>
      ({ brief := state.brief
         target_audience := state.target_audience
         course_duration := state.course_duration
         research_data := some rd
         course_structure := some (parse_structure_result text) },
       [.structureCall])
    | .error e =>
      ({ brief := state.brief
         target_audience := state.target_audience
         course_duration := state.course_duration
         research_data := some rd
         error := some (ts "Structure creation error: " ++ e) },
       [.structureCall])

/-- `ContentAgent.generate_lesson_content`: building the prompt reads
`research_data.get(...)`, which raises an `AttributeError` when
`research_data` is `None` (before any generation call is made); otherwise
the generation call runs and its output is parsed. -/
def generate_lesson_content (o : GenOracle) (research_data : Option ResearchDict)
    (module_title lesson_title : Str) : Except Str ContentResult :=
  match research_data with
  | none => .error (ts "AttributeError: NoneType object has no attribute get")
  | some _ => (o.genContent module_title lesson_title).map parse_content_result

/-- The per-lesson body of the fan-out loop in `generate_course_content`:
on success the parsed entry is appended, on failure the exception is
caught and a diagnostic entry with empty resources is appended. -/
def lesson_entry (o : GenOracle) (rd : Option ResearchDict)
    (module_title lesson_title : Str) : LessonContent :=
  match generate_lesson_content o rd module_title lesson_title with
  | .ok c => { title := lesson_title, content := c.content, resources := c.resources }
  | .error e =>
    { title := lesson_title
      content := ts "Error generating content: " ++ e
      resources := [] }

/-- Python dict lookup `d.get(k)` on the `content_data` association list. -/
def pyGet (d : ContentDict) (k : Str) : Option (List LessonContent) :=
  (d.find? (fun p => p.1 == k)).map (fun p => p.2)

/-- Python dict assignment `d[k] = v`: overwrite in place if the key
exists, else append the new key. -/
def pySet (d : ContentDict) (k : Str) (v : List LessonContent) : ContentDict :=
  if d.any (fun p => p.1 == k) then
    d.map (fun p => if p.1 == k then (k, v) else p)
  else d ++ [(k, v)]

/-- Python `d[k].append(x)` on the `content_data` association list. -/
def pyAppendAt (d : ContentDict) (k : Str) (x : LessonContent) : ContentDict :=
  d.map (fun p => if p.1 == k then (p.1, p.2 ++ [x]) else p)

/-- The per-module body of the fan-out loop: reset the entry for the
module title to the empty list, then append one entry per lesson. -/
def module_content (o : GenOracle) (rd : Option ResearchDict)
    (d : ContentDict) (m : ModuleS) : ContentDict :=
  m.lessons.foldl
    (fun d2 l => pyAppendAt d2 m.title (lesson_entry o rd m.title l.title))
    (pySet d m.title [])

/-- The generation calls issued by the fan-out, in loop order; when
`research_data` is `None` every per-lesson invocation raises before
reaching the generation call, so no call is made. -/
def lesson_calls (rd : Option ResearchDict) (cs : CourseStructure) : List GenCall :=
  match rd with
  | none => []
  | some _ =>
    cs.modules.flatMap (fun m => m.lessons.map (fun l => .contentCall m.title l.title))

/-- The whole fan-out of `generate_course_content`: fold the per-module
loop over the modules of the course structure, starting from the empty
dict. -/
def content_dict (o : GenOracle) (rd : Option ResearchDict)
    (cs : CourseStructure) : ContentDict :=
  cs.modules.foldl (module_content o rd) []

/-- Orchestrator node `generate_course_content`: prerequisite check on
`course_structure`, then the module and lesson fan-out with per-lesson
fault isolation. -/
def generate_course_content (o : GenOracle) (state : AgentState) :
    AgentState × List GenCall :=
  match state.course_structure with
  | none =>
    ({ brief := state.brief
       target_audience := state.target_audience
       course_duration := state.course_duration
       research_data := state.research_data
       error := some (ts "No course structure available for generating content") },
     [])
  | some cs =>
    ({ brief := state.brief
       target_audience := state.target_audience
       course_duration := state.course_duration
       research_data := state.research_data
       course_structure := some cs
       content_data := some (content_dict o state.research_data cs) },
     lesson_calls state.research_data cs)

/-- Orchestrator node `finalize_course`: prerequisite checks on
`course_structure` and `content_data` (the Python truthiness test treats
an empty dict like a missing one), then assembly of the final course:
each structure module gets the `content_data` entry found under its exact
title (default empty list), and the references are copied from the parsed
research resources when `research_data` is present and has a `resources`
key. -/
def finalize_course (state : AgentState) : AgentState :=
  match state.course_structure with
  | none =>
    { brief := state.brief
      target_audience := state.target_audience
      course_duration := state.course_duration
      research_data := state.research_data
      error := some (ts "Missing course structure for finalizing the course") }
  | some cs =>
    match state.content_data with
    | none =>
      { brief := state.brief
        target_audience := state.target_audience
        course_duration := state.course_duration
        research_data := state.research_data
        course_structure := some cs
        error := some (ts "Missing content data for finalizing the course") }
    | some cd =>
      if cd.isEmpty then
        { brief := state.brief
          target_audience := state.target_audience
          course_duration := state.course_duration
          research_data := state.research_data
          course_structure := some cs
          error := some (ts "Missing content data for finalizing the course") }
      else
        { brief := state.brief
          target_audience := state.target_audience
          course_duration := state.course_duration
          research_data := state.research_data
          course_structure := some cs
          content_data := some cd
          final_course := some
            { course_title := cs.course_title
              description := cs.course_description
              modules := cs.modules.map
                (fun m => { title := m.title, lessons := (pyGet cd m.title).getD [] })
              references :=
                match state.research_data with
                | some (.parsed rd) => rd.resources
                | _ => [] } }

/-- Python truthiness of an optional string (`None` and `""` are falsy). -/
def pyTruthyStr (s : Option Str) : Bool :=
  match s with
  | none => false
  | some s => !s.isEmpty

/-- Orchestrator `should_end`: the conditional edge out of the `finalize`
node. -/
def should_end (state : AgentState) : Str :=
  if pyTruthyStr state.error then ts "end"
  else if state.final_course.isSome then ts "end"
  else ts "continue"

/-- The conditional self-loop on the `finalize` node of the compiled
graph: while `should_end` answers `continue`, run `finalize_course`
again (fuelled; the loop is in fact never taken, see the C9 theorem). -/
def finalizeLoop : Nat → AgentState → AgentState
  | 0, st => st
  | n + 1, st =>
    if should_end st = ts "continue" then finalizeLoop n (finalize_course st) else st

/-- The initial `AgentState` built by `generate_course`. -/
def initial_state (brief : Str) (ta cd : Option Str) : AgentState :=
  { brief := brief, target_audience := ta, course_duration := cd }

/-- One run of the compiled graph: the four nodes in their wired order
(`research → structure → content → finalize`, all unconditional edges)
followed by the conditional self-loop on `finalize`; also returns the
trace of external generation calls. -/
def runPipeline (o : GenOracle) (s0 : AgentState) : AgentState × List GenCall :=
  let r1 := research_course_topic o s0
  let r2 := create_course_structure o r1.1
  let r3 := generate_course_content o r2.1
  let s4 := finalize_course r3.1
  (finalizeLoop 8 s4, r1.2 ++ r2.2 ++ r3.2)

/-- The conversion of the `final_course` dictionary into the public
`CourseResponse` performed at the end of `generate_course`. -/
def toCourseResponse (fc : FinalCourse) : CourseResponse :=
  { course_title := fc.course_title
    description := fc.description
    modules := fc.modules.map
      (fun m =>
        { title := m.title
          lessons := m.lessons.map
            (fun l => { title := l.title, content := l.content, resources := l.resources }) })
    references := fc.references }

/-- The final inspection of the terminal state performed by
`generate_course`: raise on a truthy `error`, raise a generic message when
`final_course` is missing, else convert and return. -/
def generate_course_result (fs : AgentState) : Except Str CourseResponse :=
  if pyTruthyStr fs.error then
    .error (ts "Course generation failed: " ++ fs.error.getD [])
  else
    match fs.final_course with
    | none => .error (ts "Course generation failed: No final course data available")
    | some fc => .ok (toCourseResponse fc)

/-- Orchestrator `generate_course`: run the graph, then inspect the
terminal state. -/
def generate_course (o : GenOracle) (brief : Str) (ta cd : Option Str) :
    Except Str CourseResponse :=
  generate_course_result ((runPipeline o (initial_state brief ta cd)).1)

/-- Outcome of the HTTP endpoint. -/
inductive HTTPResult where
  | ok200 (course : CourseResponse)
  | err500 (detail : Str)
deriving DecidableEq, Repr

/-- Router `create_course` (`POST /api/courses/generate`): any raised
failure becomes a 500 whose detail prefixes the message. -/
def create_course (o : GenOracle) (req : CourseRequest) : HTTPResult :=
  match generate_course o req.brief req.target_audience req.course_duration with
  | .ok c => .ok200 c
  | .error e => .err500 (ts "Failed to generate course: " ++ e)

/-- A small course structure used by concrete counterexamples. -/
def csEx : CourseStructure :=
  { course_title := ts "T"
    course_description := ts "D"
    modules := [{ title := ts "M", lessons := [{ title := ts "L", content := [] }] }]
    rationale := ts "R" }

/-- A concrete state exercising the amended C7: one module title found in
`content_data`, one absent. -/
def c7wState : AgentState :=
  { brief := ts "b"
    research_data := some (.parsed
      { summary := ts "s"
        key_concepts := []
        resources := [ts "ref1"]
        insights := ts "i" })
    course_structure := some
      { course_title := ts "T"
        course_description := ts "D"
        modules := [{ title := ts "M", lessons := [] },
          { title := ts "Absent", lessons := [] }]
        rationale := ts "R" }
    content_data := some
      [(ts "M", [{ title := ts "L", content := ts "body", resources := [] }])] }

/-- A generation collaborator whose structure call fails, used as the C8
witness scenario. -/
def c8Oracle : GenOracle :=
  { genResearch := .ok (ts "RESEARCH SUMMARY:\nS\n\nKEY CONCEPTS:\nK\n\nRESOURCES:\nR\n\nINSIGHTS:\nI")
    genStructure := .error (ts "backend down")
    genContent := fun _ _ => .ok (ts "CONTENT:\nBody\n\nRESOURCES:\nRes") }

/-- A generation collaborator whose research call fails while structure and
content calls succeed. -/
def c1Oracle : GenOracle :=
  { genResearch := .error (ts "LLM unavailable")
    genStructure := .ok (ts "COURSE TITLE:\nT\n\nMODULE 1: M1\n- Lesson 1.1: L1")
    genContent := fun _ _ => .ok (ts "CONTENT:\nBody\n\nRESOURCES:\nRes") }

/-- A course structure with two equal-titled modules. -/
def c10CS : CourseStructure :=
  { course_title := ts "T"
    course_description := ts "D"
    modules := [{ title := ts "A", lessons := [{ title := ts "X", content := [] }] },
      { title := ts "A", lessons := [{ title := ts "Y", content := [] }] }]
    rationale := ts "R" }

/-- The state entering the Content stage in the C10 witness scenario. -/
def c10State : AgentState :=
  { brief := ts "b"
    research_data := some (.parsed
      { summary := ts "s", key_concepts := [], resources := [], insights := ts "i" })
    course_structure := some c10CS }

/-- A content collaborator answering every lesson. -/
def c10Oracle : GenOracle :=
  { genResearch := .ok []
    genStructure := .ok []
    genContent := fun _ lt => .ok (ts "CONTENT:\nBody for " ++ lt ++ ts "\n\nRESOURCES:\nR1") }

/-- The state entering the Content stage in the C2 scenarios (distinct
module titles). -/
def c2wCS : CourseStructure :=
  { course_title := ts "T"
    course_description := ts "D"
    modules := [{ title := ts "M1", lessons :=
        [{ title := ts "L1", content := [] }, { title := ts "L2", content := [] }] },
      { title := ts "M2", lessons := [{ title := ts "L3", content := [] }] }]
    rationale := ts "R" }

def c2wState : AgentState :=
  { brief := ts "b"
    research_data := some (.parsed
      { summary := ts "s", key_concepts := [], resources := [], insights := ts "i" })
    course_structure := some c2wCS }

/-- A content collaborator failing exactly on module `M1`, lesson `L2`. -/
def c2wOracle : GenOracle :=
  { genResearch := .ok []
    genStructure := .ok []
    genContent := fun mt lt =>
      if mt == ts "M1" && lt == ts "L2" then .error (ts "boom")
      else .ok (ts "CONTENT:\nBody\n\nRESOURCES:\nR1") }

/-- A content collaborator failing exactly on the pair `A`, `X`. -/
def c2Oracle : GenOracle :=
  { genResearch := .ok []
    genStructure := .ok []
    genContent := fun _ lt =>
      if lt == ts "X" then .error (ts "boom")
      else .ok (ts "CONTENT:\nBody\n\nRESOURCES:\nR1") }

/-- Modelled from the claim wording of C4: the lesson title is the text
after the first colon when a colon is present in the line, else the line
with the leading dash removed; trimmed either way. -/
def specC4LessonTitle (line : Str) : Str :=
  if pyContains (ts ":") line then
    pyStrip ((pySplitOnce (ts ":") line).getD 1 [])
  else
    pyStrip (pyReplaceOnce (ts "- ") [] line)

/-- The modules branch of the structure section dispatch. -/
def structure_section_module (sec : Str) : Option ModuleS :=
  if pyContains (ts "COURSE TITLE:") (pyStrip sec) then none
  else if pyContains (ts "COURSE DESCRIPTION:") (pyStrip sec) then none
  else if pyContains (ts "RATIONALE:") (pyStrip sec) then none
  else if pyStartsWith (ts "MODULE ") (pyStrip sec) then
    some (parse_module_block (pyStrip sec))
  else none

/-- A well-formed structure text for the C4 witness. -/
def c4Text : Str :=
  ts "COURSE TITLE:\nAlpha Course\n\nMODULE 1: Basics\n- Lesson 1.1: Intro\n- Lesson 1.2: More\n\nMODULE 2: Advanced\n- Deep dive\n\nRATIONALE:\nBecause"

/-- The literal header of each research section. -/
def rHeader : RSection → Str
  | .summary => ts "RESEARCH SUMMARY:"
  | .key_concepts => ts "KEY CONCEPTS:"
  | .resources => ts "RESOURCES:"
  | .insights => ts "INSIGHTS:"

/-- Which branch of the `elif` chain a block takes. -/
def rKind (sec : Str) : Option RSection :=
  if pyContains (rHeader .summary) sec then some .summary
  else if pyContains (rHeader .key_concepts) sec then some .key_concepts
  else if pyContains (rHeader .resources) sec then some .resources
  else if pyContains (rHeader .insights) sec then some .insights
  else none

/-- The field update performed by the branch of kind `k`. -/
def setRField : RSection → Str → ResearchData → ResearchData
  | .summary, sec, rd =>
    { rd with summary := pyStrip (pyReplace (ts "RESEARCH SUMMARY:") [] sec) }
  | .key_concepts, sec, rd =>
    { rd with key_concepts := pyCleanLines (pyStrip (pyReplace (ts "KEY CONCEPTS:") [] sec)) }
  | .resources, sec, rd =>
    { rd with resources := pyCleanLines (pyStrip (pyReplace (ts "RESOURCES:") [] sec)) }
  | .insights, sec, rd =>
    { rd with insights := pyStrip (pyReplace (ts "INSIGHTS:") [] sec) }

/-- Modelled from the claim wording of C6: the non-empty trimmed lines of
the (trimmed) body text under a header. -/
def specC6Items (body : Str) : List Str :=
  ((pySplit (ts "\n") (pyStrip body)).map pyStrip).filter (fun l => !l.isEmpty)

/-- A research text with all four headers in scrambled order. -/
def c6Text : Str :=
  ts "INSIGHTS:\nGreat insight\n\nKEY CONCEPTS:\nC1\nC2\n\nRESEARCH SUMMARY:\nThe summary\n\nRESOURCES:\nR1"

/-- The block decomposition of `c6Text`. -/
def c6Assign : List (RSection × Str) :=
  [(RSection.insights, ts "\nGreat insight"),
   (RSection.key_concepts, ts "\nC1\nC2"),
   (RSection.summary, ts "\nThe summary"),
   (RSection.resources, ts "\nR1")]

/-! ## Supporting lemmas and claim theorems -/

theorem pyContains_iff {sub s : Str} : pyContains sub s = true ↔ sub <:+: s := by
  simp [pyContains]

theorem pyContains_false_iff {sub s : Str} : pyContains sub s = false ↔ ¬ sub <:+: s := by
  simp [pyContains]

theorem pyStartsWith_iff {pre s : Str} : pyStartsWith pre s = true ↔ pre <+: s := by
  simp [pyStartsWith, List.isPrefixOf_iff_prefix]

/-- Shape of `splitGo`: the result is non-empty, its head is a prefix of
the input past the skipped characters and every later chunk is an infix
of the input. -/
theorem splitGo_shape (sep : Str) :
    ∀ (s : Str) (k : Nat), ∃ y ys, splitGo sep s k = y :: ys ∧
      y <+: s.drop k ∧ ∀ z ∈ ys, z <:+: s := by
  intro s
  induction s with
  | nil =>
    intro k
    exact ⟨[], [], rfl, List.nil_prefix, by simp⟩
  | cons c rest ih =>
    intro k
    match k with
    | Nat.succ k' =>
      obtain ⟨y, ys, hsplit, hy, hys⟩ := ih k'
      exact ⟨y, ys, hsplit, hy, fun z hz => List.infix_cons (hys z hz)⟩
    | 0 =>
      by_cases hpre : sep.isPrefixOf (c :: rest) = true
      · obtain ⟨y, ys, hsplit, hy, hys⟩ := ih (sep.length - 1)
        refine ⟨[], splitGo sep rest (sep.length - 1), ?_, List.nil_prefix, ?_⟩
        · simp only [splitGo]
          rw [if_pos hpre]
        · intro z hz
          rw [hsplit] at hz
          rcases List.mem_cons.mp hz with rfl | hz
          · exact List.infix_cons ((hy.isInfix).trans (List.drop_suffix _ _).isInfix)
          · exact List.infix_cons (hys z hz)
      · obtain ⟨y, ys, hsplit, hy, hys⟩ := ih 0
        refine ⟨c :: y, ys, ?_, ?_, fun z hz => List.infix_cons (hys z hz)⟩
        · simp only [splitGo]
          rw [if_neg hpre, hsplit]
          rfl
        · exact List.cons_prefix_cons.mpr ⟨rfl, by simpa using hy⟩

/-- Every chunk of a Python split is an infix of the input. -/
theorem pySplit_chunk_within {sep t x : Str} (hx : x ∈ pySplit sep t) : x <:+: t := by
  unfold pySplit at hx
  by_cases hsep : sep.isEmpty = true
  · simp only [hsep, if_true, List.mem_singleton] at hx
    rw [hx]
  · simp only [hsep, if_false, Bool.false_eq_true] at hx
    obtain ⟨y, ys, hsplit, hy, hys⟩ := splitGo_shape sep t 0
    rw [hsplit] at hx
    rcases List.mem_cons.mp hx with rfl | hx
    · simpa using hy.isInfix
    · exact hys x hx

/-- A marker absent from a text is absent from every blank-line block of
that text. -/
theorem pyContains_of_mem_split {sep t x m : Str} (hx : x ∈ pySplit sep t)
    (hm : pyContains m t = false) : pyContains m x = false := by
  rw [pyContains_false_iff] at hm ⊢
  exact fun h => hm (h.trans (pySplit_chunk_within hx))

/-- Skipping an already-matched block of characters. -/
theorem replaceGo_append_skip (old new : Str) :
    ∀ (xs b : Str), replaceGo old new (xs ++ b) xs.length = replaceGo old new b 0 := by
  intro xs
  induction xs with
  | nil => intro b; rfl
  | cons x xs' ih => intro b; simpa [replaceGo] using ih b

/-- Replacing in `old ++ b` first consumes the leading occurrence. -/
theorem replaceGo_append_self (old new b : Str) (h : old ≠ []) :
    replaceGo old new (old ++ b) 0 = new ++ replaceGo old new b 0 := by
  match old, h with
  | c :: orest, _ =>
    have hpre : (c :: orest).isPrefixOf ((c :: orest) ++ b) = true :=
      List.isPrefixOf_iff_prefix.mpr (List.prefix_append _ _)
    show replaceGo (c :: orest) new (c :: (orest ++ b)) 0 = _
    simp only [replaceGo]
    rw [if_pos (by exact_mod_cast hpre)]
    simp only [List.length_cons, Nat.succ_sub_one]
    rw [replaceGo_append_skip (c :: orest) new orest b]

/-- Replacement is the identity on occurrence-free strings. -/
theorem replaceGo_of_absent (old new : Str) :
    ∀ b : Str, ¬ old <:+: b → replaceGo old new b 0 = b := by
  intro b
  induction b with
  | nil => intro _; rfl
  | cons c rest ih =>
    intro h
    have hpre : ¬ old.isPrefixOf (c :: rest) = true := by
      intro hp
      exact h (List.isPrefixOf_iff_prefix.mp hp).isInfix
    simp only [replaceGo]
    rw [if_neg hpre, ih (fun hi => h (List.infix_cons hi))]

theorem pyReplace_of_not_contains {old b : Str} (new : Str)
    (h : pyContains old b = false) : pyReplace old new b = b := by
  unfold pyReplace
  by_cases he : old.isEmpty = true
  · simp [he]
  · simp only [he, if_false, Bool.false_eq_true]
    exact replaceGo_of_absent old new b (pyContains_false_iff.mp h)

/-- Stripping a leading header from a header-free body. -/
theorem pyReplace_header {old b : Str} (hne : old ≠ [])
    (hfree : pyContains old b = false) : pyReplace old [] (old ++ b) = b := by
  unfold pyReplace
  rw [if_neg (by simpa using hne)]
  rw [replaceGo_append_self old [] b hne,
    replaceGo_of_absent old [] b (pyContains_false_iff.mp hfree)]
  rfl

/-- `splitFirstGo` answers `none` exactly on occurrence-free strings. -/
theorem splitFirstGo_eq_none_iff {sep : Str} (hsep : sep ≠ []) :
    ∀ s : Str, splitFirstGo sep s = none ↔ ¬ sep <:+: s := by
  intro s
  induction s with
  | nil =>
    simp only [splitFirstGo, true_iff]
    intro h
    exact hsep (List.eq_nil_of_infix_nil h)
  | cons c rest ih =>
    constructor
    · intro h hinf
      by_cases hpre : sep.isPrefixOf (c :: rest) = true
      · simp only [splitFirstGo] at h
        rw [if_pos hpre] at h
        cases h
      · rcases List.infix_cons_iff.mp hinf with hp | hi
        · exact hpre (List.isPrefixOf_iff_prefix.mpr hp)
        · simp only [splitFirstGo] at h
          rw [if_neg hpre] at h
          cases hfg : splitFirstGo sep rest with
          | none => exact (ih.mp hfg) hi
          | some p => rw [hfg] at h; cases h
    · intro h
      by_cases hpre : sep.isPrefixOf (c :: rest) = true
      · exact absurd (List.isPrefixOf_iff_prefix.mp hpre).isInfix h
      · simp only [splitFirstGo]
        rw [if_neg hpre, ih.mpr (fun hi => h (List.infix_cons hi))]
        rfl

/-- A successful first-occurrence split decomposes the input. -/
theorem splitFirstGo_eq_some {sep : Str} :
    ∀ {s a b : Str}, splitFirstGo sep s = some (a, b) → s = a ++ sep ++ b := by
  intro s
  induction s with
  | nil => intro a b h; cases h
  | cons c rest ih =>
    intro a b h
    by_cases hpre : sep.isPrefixOf (c :: rest) = true
    · simp only [splitFirstGo] at h
      rw [if_pos hpre] at h
      obtain ⟨t, ht⟩ := List.isPrefixOf_iff_prefix.mp hpre
      have ha : a = [] := by
        cases h
        rfl
      have hb : b = (c :: rest).drop sep.length := by
        cases h
        rfl
      subst ha
      subst hb
      conv_lhs => rw [← ht]
      rw [← ht, List.drop_left]
      rfl
    · simp only [splitFirstGo] at h
      rw [if_neg hpre] at h
      cases hfg : splitFirstGo sep rest with
      | none => rw [hfg] at h; cases h
      | some p =>
        rw [hfg] at h
        have hp : p.1 = a.tail ∧ p.2 = b ∧ a = c :: p.1 := by
          cases h
          exact ⟨rfl, rfl, rfl⟩
        obtain ⟨_, hb, ha⟩ := hp
        subst hb
        subst ha
        have := ih (a := p.1) (b := p.2) (by rw [hfg])
        simp only [List.cons_append]
        rw [← this]

/-- Every `finalize_course` output carries an error or a final course, and
`should_end` answers `end` on it. -/
theorem finalize_course_terminal (st : AgentState) :
    ((finalize_course st).error.isSome ∨ (finalize_course st).final_course.isSome) ∧
      should_end (finalize_course st) = ts "end" := by
  unfold finalize_course
  cases st.course_structure with
  | none => exact ⟨Or.inl rfl, rfl⟩
  | some cs =>
    cases st.content_data with
    | none => exact ⟨Or.inl rfl, rfl⟩
    | some cd =>
      cases cd with
      | nil => exact ⟨Or.inl rfl, rfl⟩
      | cons p ps => exact ⟨Or.inr rfl, rfl⟩

/-- C9: for every input state, the state returned by `finalize_course` has
`error` set or `final_course` set, and `should_end` answers `end` on it,
so the conditional self-loop edge from `finalize` back to itself (taken
only on `continue`) is unreachable. -/
theorem claim_C9 (st : AgentState) :
    ((finalize_course st).error.isSome ∨ (finalize_course st).final_course.isSome) ∧
      should_end (finalize_course st) = ts "end" :=
  finalize_course_terminal st

/-- The self-loop collapses: one pass of `finalize_course` is terminal. -/
theorem finalizeLoop_finalize (n : Nat) (st : AgentState) :
    finalizeLoop n (finalize_course st) = finalize_course st := by
  cases n with
  | zero => rfl
  | succ n =>
    unfold finalizeLoop
    rw [if_neg (by rw [(finalize_course_terminal st).2]; decide)]

/-- The graph run is exactly the four stage functions in sequence. -/
theorem runPipeline_eq (o : GenOracle) (s0 : AgentState) :
    runPipeline o s0 =
      (finalize_course (generate_course_content o (create_course_structure o
          (research_course_topic o s0).1).1).1,
        (research_course_topic o s0).2 ++
          (create_course_structure o (research_course_topic o s0).1).2 ++
          (generate_course_content o (create_course_structure o
            (research_course_topic o s0).1).1).2) := by
  show (finalizeLoop 8 (finalize_course (generate_course_content o
      (create_course_structure o (research_course_topic o s0).1).1).1), _) = _
  rw [finalizeLoop_finalize]

/-- C3: on the given concrete input, content parsing returns body `Hello`
and resources `A`, `B`; and whenever either literal marker is absent, the
whole raw text becomes the content and the resources are empty (the
parser is a total function, so nothing is raised). -/
theorem claim_C3 :
    parse_content_result (ts "CONTENT:\nHello\n\nRESOURCES:\nA\nB") =
      { content := ts "Hello", resources := [ts "A", ts "B"] } ∧
    ∀ result : Str,
      (pyContains (ts "CONTENT:") result = false ∨
        pyContains (ts "RESOURCES:") result = false) →
      parse_content_result result = { content := result, resources := [] } := by
  constructor
  · decide
  · intro result h
    unfold parse_content_result
    rcases h with h | h <;> simp [h]

/-- Witness for C3 at a concrete marker-free input. -/
theorem claim_C3_witness :
    (pyContains (ts "CONTENT:") (ts "plain text, no markers") = false ∨
      pyContains (ts "RESOURCES:") (ts "plain text, no markers") = false) ∧
    parse_content_result (ts "plain text, no markers") =
      { content := ts "plain text, no markers", resources := [] } :=
  ⟨Or.inl (by decide), claim_C3.2 _ (Or.inl (by decide))⟩

/-- C7 counterexample: a state whose `course_structure` and `content_data`
are both present, with `content_data` the empty mapping, on which
`finalize_course` produces no `final_course` at all but an error state
(the Python truthiness check treats the present empty dict as missing). -/
theorem claim_C7_counterexample :
    (finalize_course
        { brief := ts "b", course_structure := some csEx,
          content_data := some ([] : ContentDict) }).final_course = none ∧
    (finalize_course
        { brief := ts "b", course_structure := some csEx,
          content_data := some ([] : ContentDict) }).error =
      some (ts "Missing content data for finalizing the course") := by
  constructor <;> decide

/-- Characterisation of a successful `finalize_course` run. -/
theorem finalize_course_success (st : AgentState) (cs : CourseStructure) (cd : ContentDict)
    (hcs : st.course_structure = some cs) (hcd : st.content_data = some cd)
    (hne : cd ≠ []) :
    (finalize_course st).error = none ∧
    (finalize_course st).final_course = some
      { course_title := cs.course_title
        description := cs.course_description
        modules := cs.modules.map
          (fun m => { title := m.title, lessons := (pyGet cd m.title).getD [] })
        references :=
          match st.research_data with
          | some (.parsed rd) => rd.resources
          | _ => [] } := by
  have hcde : cd.isEmpty = false := by
    cases cd with
    | nil => exact absurd rfl hne
    | cons p ps => rfl
  obtain ⟨b, ta, du, rdta, cstr, cdata, fc, er⟩ := st
  simp only [AgentState.course_structure] at hcs
  simp only [AgentState.content_data] at hcd
  subst hcs
  subst hcd
  simp only [finalize_course, hcde, Bool.false_eq_true, if_false]
  exact ⟨trivial, trivial⟩

/-- C7 (amended): given a state whose `course_structure` is present and
whose `content_data` is present and non-empty, `finalize_course` raises
nothing and produces a `final_course` in which every module of
`course_structure`, in order, carries the `content_data` entry found
under its exact title (absent entries defaulting to the empty lesson
list), and whose references are the parsed research resources when
`research_data` is present and parsed, and empty otherwise. -/
theorem claim_C7 (st : AgentState) (cs : CourseStructure) (cd : ContentDict)
    (hcs : st.course_structure = some cs) (hcd : st.content_data = some cd)
    (hne : cd ≠ []) :
    (finalize_course st).error = none ∧
    (finalize_course st).final_course = some
      { course_title := cs.course_title
        description := cs.course_description
        modules := cs.modules.map
          (fun m => { title := m.title, lessons := (pyGet cd m.title).getD [] })
        references :=
          match st.research_data with
          | some (.parsed rd) => rd.resources
          | _ => [] } :=
  finalize_course_success st cs cd hcs hcd hne

/-- Witness for C7 at `c7wState`: the looked-up module keeps its content
entry, the absent one gets the empty lesson list, and the references come
from the parsed research resources. -/
theorem claim_C7_witness :
    (some ([(ts "M", [{ title := ts "L", content := ts "body", resources := [] }])] :
        ContentDict) ≠ (none : Option ContentDict)) ∧
    (finalize_course c7wState).final_course = some
      { course_title := ts "T"
        description := ts "D"
        modules :=
          [{ title := ts "M"
             lessons := [{ title := ts "L", content := ts "body", resources := [] }] },
           { title := ts "Absent", lessons := [] }]
        references := [ts "ref1"] } := by
  refine ⟨by decide, ?_⟩
  rw [(claim_C7 c7wState _ _ rfl rfl (by decide)).2]
  decide

/-- Every error message `finalize_course` can leave in the terminal state
is non-empty. -/
theorem finalize_error_nonempty (st : AgentState) :
    ∀ e, (finalize_course st).error = some e → e ≠ [] := by
  obtain ⟨b, ta, du, rdta, cstr, cdata, fc, er⟩ := st
  cases cstr with
  | none =>
    intro e h
    simp only [finalize_course] at h
    have h2 := Option.some_inj.mp h.symm
    rw [h2]
    decide
  | some cs =>
    cases cdata with
    | none =>
      intro e h
      simp only [finalize_course] at h
      have h2 := Option.some_inj.mp h.symm
      rw [h2]
      decide
    | some cd =>
      cases cd with
      | nil =>
        intro e h
        simp only [finalize_course, List.isEmpty_nil, if_true] at h
        have h2 := Option.some_inj.mp h.symm
        rw [h2]
        decide
      | cons p ps =>
        intro e h
        simp only [finalize_course, List.isEmpty_cons, Bool.false_eq_true, if_false] at h
        exact absurd h (by simp)

/-- C8: after the graph reaches its terminal state, `generate_course`
raises `Course generation failed: <error>` when the state has an error,
raises the generic no-result message when `final_course` is unset, and
otherwise returns `final_course` converted to `CourseResponse`; every
raised message is surfaced by the endpoint as a 500 whose detail is
`Failed to generate course: <message>`, and a returned course is surfaced
as a 200. -/
theorem claim_C8 (o : GenOracle) (brief : Str) (ta cd : Option Str) :
    (∀ e, ((runPipeline o (initial_state brief ta cd)).1).error = some e →
      generate_course o brief ta cd = .error (ts "Course generation failed: " ++ e)) ∧
    (((runPipeline o (initial_state brief ta cd)).1).error = none →
      ((runPipeline o (initial_state brief ta cd)).1).final_course = none →
      generate_course o brief ta cd =
        .error (ts "Course generation failed: No final course data available")) ∧
    (∀ fc, ((runPipeline o (initial_state brief ta cd)).1).error = none →
      ((runPipeline o (initial_state brief ta cd)).1).final_course = some fc →
      generate_course o brief ta cd = .ok (toCourseResponse fc)) ∧
    (∀ m, generate_course o brief ta cd = .error m →
      create_course o { brief := brief, target_audience := ta, course_duration := cd } =
        .err500 (ts "Failed to generate course: " ++ m)) ∧
    (∀ c, generate_course o brief ta cd = .ok c →
      create_course o { brief := brief, target_audience := ta, course_duration := cd } =
        .ok200 c) := by
  refine ⟨?_, ?_, ?_, ?_, ?_⟩
  · intro e he
    have hne : e ≠ [] := by
      rw [runPipeline_eq] at he
      exact finalize_error_nonempty _ e he
    have htr : pyTruthyStr (some e) = true := by
      cases e with
      | nil => exact absurd rfl hne
      | cons c cs' => rfl
    unfold generate_course generate_course_result
    rw [he, if_pos htr]
    rfl
  · intro he hf
    unfold generate_course generate_course_result
    rw [he, if_neg (by decide), hf]
  · intro fc he hf
    unfold generate_course generate_course_result
    rw [he, if_neg (by decide), hf]
  · intro m hm
    unfold create_course
    rw [show ({ brief := brief, target_audience := ta, course_duration := cd } :
      CourseRequest).brief = brief from rfl]
    rw [hm]
  · intro c hc
    unfold create_course
    rw [hc]

/-- Witness for C8: with a failing structure call the terminal state ends
up carrying the finalize prerequisite error, `generate_course` raises the
prefixed message and the endpoint returns the 500 detail. -/
theorem claim_C8_witness :
    ((runPipeline c8Oracle (initial_state (ts "topic") none none)).1).error =
      some (ts "Missing course structure for finalizing the course") ∧
    generate_course c8Oracle (ts "topic") none none =
      .error (ts "Course generation failed: Missing course structure for finalizing the course") ∧
    create_course c8Oracle { brief := ts "topic" } =
      .err500 (ts "Failed to generate course: Course generation failed: Missing course structure for finalizing the course") := by
  have h1 : ((runPipeline c8Oracle (initial_state (ts "topic") none none)).1).error =
      some (ts "Missing course structure for finalizing the course") := by decide
  have h2 := (claim_C8 c8Oracle (ts "topic") none none).1 _ h1
  have h3 := (claim_C8 c8Oracle (ts "topic") none none).2.2.2.1 _ h2
  refine ⟨h1, ?_, ?_⟩
  · rw [h2]
    exact congrArg Except.error (by decide)
  · rw [h3]
    exact congrArg HTTPResult.err500 (by decide)

/-- C1 counterexample: the research generation call fails, yet the
Structure stage issues its generation call and the request returns a
course with no raised failure at all (so no terminal failure carrying the
original failure text exists, and a later stage ran after the failure). -/
theorem claim_C1_counterexample :
    c1Oracle.genResearch = .error (ts "LLM unavailable") ∧
    GenCall.structureCall ∈ (runPipeline c1Oracle (initial_state (ts "topic") none none)).2 ∧
    (generate_course c1Oracle (ts "topic") none none).isOk = true := by
  refine ⟨rfl, ?_, ?_⟩ <;> decide

/-- C1 (amended): if the Research stage generation call fails, the failure
is swallowed into `research_data` as an error dictionary
(`Research failed: <text>`) and the state error stays unset; the Structure
stage is still invoked (its generation call appears in the trace), because
every stage node runs unconditionally — in particular the Content node
runs on any state and overwrites a pre-existing error with its own
prerequisite message when `course_structure` is missing. -/
theorem claim_C1 (o : GenOracle) (m brief : Str) (ta cd : Option Str)
    (hfail : o.genResearch = .error m) :
    (research_course_topic o (initial_state brief ta cd)).1.error = none ∧
    (research_course_topic o (initial_state brief ta cd)).1.research_data =
      some (.errDict (ts "Research failed: " ++ m)) ∧
    GenCall.structureCall ∈ (runPipeline o (initial_state brief ta cd)).2 ∧
    (∀ st : AgentState, st.course_structure = none →
      (generate_course_content o st).1.error =
        some (ts "No course structure available for generating content")) := by
  refine ⟨rfl, ?_, ?_, ?_⟩
  · unfold research_course_topic research_topic
    rw [hfail]
  · rw [runPipeline_eq]
    cases hg : o.genStructure with
    | ok text =>
      simp [research_course_topic, create_course_structure, hg]
    | error e =>
      simp [research_course_topic, create_course_structure, hg]
  · intro st hst
    simp [generate_course_content, hst]

/-- Witness for C1 at the concrete failing oracle. -/
theorem claim_C1_witness :
    c1Oracle.genResearch = .error (ts "LLM unavailable") ∧
    (research_course_topic c1Oracle (initial_state (ts "topic") none none)).1.research_data =
      some (.errDict (ts "Research failed: " ++ ts "LLM unavailable")) ∧
    GenCall.structureCall ∈ (runPipeline c1Oracle (initial_state (ts "topic") none none)).2 :=
  ⟨rfl,
    (claim_C1 c1Oracle (ts "LLM unavailable") (ts "topic") none none rfl).2.1,
    (claim_C1 c1Oracle (ts "LLM unavailable") (ts "topic") none none rfl).2.2.1⟩

/-- Generic fold invariant preservation. -/
theorem foldl_preserves {α β : Type} (f : β → α → β) (P : β → Prop) :
    ∀ (l : List α) (b : β), (∀ b2 a, a ∈ l → P b2 → P (f b2 a)) → P b →
      P (l.foldl f b) := by
  intro l
  induction l with
  | nil => intro b _ hb; exact hb
  | cons a l ih =>
    intro b hstep hb
    exact ih (f b a) (fun b2 a2 ha2 => hstep b2 a2 (List.mem_cons_of_mem a ha2))
      (hstep b a (List.mem_cons_self a l) hb)

/-- A block without the summary header never writes the summary field nor
opens the summary section. -/
theorem research_step_pres_summary (sec : Str) (st : ResearchData × Option RSection)
    (hc : pyContains (ts "RESEARCH SUMMARY:") sec = false)
    (hP : st.1.summary = [] ∧ st.2 ≠ some RSection.summary) :
    (research_step st sec).1.summary = [] ∧
      (research_step st sec).2 ≠ some RSection.summary := by
  obtain ⟨rd, cur⟩ := st
  obtain ⟨h1, h2⟩ := hP
  unfold research_step
  split_ifs with g1 g2 g3 g4
  · rw [hc] at g1
    cases g1
  · exact ⟨h1, by intro hx; exact RSection.noConfusion (Option.some_inj.mp hx)⟩
  · exact ⟨h1, by intro hx; exact RSection.noConfusion (Option.some_inj.mp hx)⟩
  · exact ⟨h1, by intro hx; exact RSection.noConfusion (Option.some_inj.mp hx)⟩
  · cases cur with
    | none => exact ⟨h1, h2⟩
    | some k =>
      cases k with
      | summary => exact absurd rfl h2
      | key_concepts => exact ⟨h1, h2⟩
      | resources => exact ⟨h1, h2⟩
      | insights => exact ⟨h1, h2⟩

/-- A block without the key-concepts header never writes `key_concepts`
nor opens that section. -/
theorem research_step_pres_kc (sec : Str) (st : ResearchData × Option RSection)
    (hc : pyContains (ts "KEY CONCEPTS:") sec = false)
    (hP : st.1.key_concepts = [] ∧ st.2 ≠ some RSection.key_concepts) :
    (research_step st sec).1.key_concepts = [] ∧
      (research_step st sec).2 ≠ some RSection.key_concepts := by
  obtain ⟨rd, cur⟩ := st
  obtain ⟨h1, h2⟩ := hP
  unfold research_step
  split_ifs with g1 g2 g3 g4
  · exact ⟨h1, by intro hx; exact RSection.noConfusion (Option.some_inj.mp hx)⟩
  · rw [hc] at g2
    cases g2
  · exact ⟨h1, by intro hx; exact RSection.noConfusion (Option.some_inj.mp hx)⟩
  · exact ⟨h1, by intro hx; exact RSection.noConfusion (Option.some_inj.mp hx)⟩
  · cases cur with
    | none => exact ⟨h1, h2⟩
    | some k =>
      cases k with
      | summary => exact ⟨h1, h2⟩
      | key_concepts => exact absurd rfl h2
      | resources => exact ⟨h1, h2⟩
      | insights => exact ⟨h1, h2⟩

/-- A block without the resources header never writes `resources` nor
opens that section. -/
theorem research_step_pres_res (sec : Str) (st : ResearchData × Option RSection)
    (hc : pyContains (ts "RESOURCES:") sec = false)
    (hP : st.1.resources = [] ∧ st.2 ≠ some RSection.resources) :
    (research_step st sec).1.resources = [] ∧
      (research_step st sec).2 ≠ some RSection.resources := by
  obtain ⟨rd, cur⟩ := st
  obtain ⟨h1, h2⟩ := hP
  unfold research_step
  split_ifs with g1 g2 g3 g4
  · exact ⟨h1, by intro hx; exact RSection.noConfusion (Option.some_inj.mp hx)⟩
  · exact ⟨h1, by intro hx; exact RSection.noConfusion (Option.some_inj.mp hx)⟩
  · rw [hc] at g3
    cases g3
  · exact ⟨h1, by intro hx; exact RSection.noConfusion (Option.some_inj.mp hx)⟩
  · cases cur with
    | none => exact ⟨h1, h2⟩
    | some k =>
      cases k with
      | summary => exact ⟨h1, h2⟩
      | key_concepts => exact ⟨h1, h2⟩
      | resources => exact absurd rfl h2
      | insights => exact ⟨h1, h2⟩

/-- A block without the insights header never writes `insights` nor opens
that section. -/
theorem research_step_pres_ins (sec : Str) (st : ResearchData × Option RSection)
    (hc : pyContains (ts "INSIGHTS:") sec = false)
    (hP : st.1.insights = [] ∧ st.2 ≠ some RSection.insights) :
    (research_step st sec).1.insights = [] ∧
      (research_step st sec).2 ≠ some RSection.insights := by
  obtain ⟨rd, cur⟩ := st
  obtain ⟨h1, h2⟩ := hP
  unfold research_step
  split_ifs with g1 g2 g3 g4
  · exact ⟨h1, by intro hx; exact RSection.noConfusion (Option.some_inj.mp hx)⟩
  · exact ⟨h1, by intro hx; exact RSection.noConfusion (Option.some_inj.mp hx)⟩
  · exact ⟨h1, by intro hx; exact RSection.noConfusion (Option.some_inj.mp hx)⟩
  · rw [hc] at g4
    cases g4
  · cases cur with
    | none => exact ⟨h1, h2⟩
    | some k =>
      cases k with
      | summary => exact ⟨h1, h2⟩
      | key_concepts => exact ⟨h1, h2⟩
      | resources => exact ⟨h1, h2⟩
      | insights => exact absurd rfl h2

/-- C5: for every research text in which a recognised header does not
occur, parsing leaves the corresponding field at its default (empty
string or empty list); the parser is a total function, so it raises
nothing on any input string. -/
theorem claim_C5 (t : Str) :
    (pyContains (ts "RESEARCH SUMMARY:") t = false →
      (parse_research_result t).summary = []) ∧
    (pyContains (ts "KEY CONCEPTS:") t = false →
      (parse_research_result t).key_concepts = []) ∧
    (pyContains (ts "RESOURCES:") t = false →
      (parse_research_result t).resources = []) ∧
    (pyContains (ts "INSIGHTS:") t = false →
      (parse_research_result t).insights = []) := by
  refine ⟨?_, ?_, ?_, ?_⟩
  · intro h
    exact (foldl_preserves research_step
      (fun p => p.1.summary = [] ∧ p.2 ≠ some RSection.summary)
      (pySplit (ts "\n\n") t) (⟨[], [], [], []⟩, none)
      (fun b2 a ha => research_step_pres_summary a b2 (pyContains_of_mem_split ha h))
      ⟨rfl, by decide⟩).1
  · intro h
    exact (foldl_preserves research_step
      (fun p => p.1.key_concepts = [] ∧ p.2 ≠ some RSection.key_concepts)
      (pySplit (ts "\n\n") t) (⟨[], [], [], []⟩, none)
      (fun b2 a ha => research_step_pres_kc a b2 (pyContains_of_mem_split ha h))
      ⟨rfl, by decide⟩).1
  · intro h
    exact (foldl_preserves research_step
      (fun p => p.1.resources = [] ∧ p.2 ≠ some RSection.resources)
      (pySplit (ts "\n\n") t) (⟨[], [], [], []⟩, none)
      (fun b2 a ha => research_step_pres_res a b2 (pyContains_of_mem_split ha h))
      ⟨rfl, by decide⟩).1
  · intro h
    exact (foldl_preserves research_step
      (fun p => p.1.insights = [] ∧ p.2 ≠ some RSection.insights)
      (pySplit (ts "\n\n") t) (⟨[], [], [], []⟩, none)
      (fun b2 a ha => research_step_pres_ins a b2 (pyContains_of_mem_split ha h))
      ⟨rfl, by decide⟩).1

/-- Witness for C5: a text with only a resources header leaves summary,
key concepts and insights at their defaults. -/
theorem claim_C5_witness :
    pyContains (ts "RESEARCH SUMMARY:") (ts "RESOURCES:\nR1\nR2") = false ∧
    (parse_research_result (ts "RESOURCES:\nR1\nR2")).summary = [] ∧
    pyContains (ts "INSIGHTS:") (ts "RESOURCES:\nR1\nR2") = false ∧
    (parse_research_result (ts "RESOURCES:\nR1\nR2")).insights = [] :=
  ⟨by decide, (claim_C5 (ts "RESOURCES:\nR1\nR2")).1 (by decide), by decide,
    (claim_C5 (ts "RESOURCES:\nR1\nR2")).2.2.2 (by decide)⟩

/-- The overwrite image of an existing key is found with the new value. -/
theorem find?_map_set (k : Str) (v : List LessonContent) :
    ∀ d : ContentDict, d.any (fun p => p.1 == k) = true →
      (d.map (fun p => if p.1 == k then (k, v) else p)).find?
        (fun p => p.1 == k) = some (k, v) := by
  intro d
  induction d with
  | nil => intro h; cases h
  | cons q d' ih =>
    intro h
    by_cases hq : (q.1 == k) = true
    · simp [List.find?, hq]
    · have h' : d'.any (fun p => p.1 == k) = true := by
        rcases List.any_eq_true.mp h with ⟨p, hp, hpk⟩
        rcases List.mem_cons.mp hp with rfl | hp'
        · exact absurd hpk hq
        · exact List.any_eq_true.mpr ⟨p, hp', hpk⟩
      have hqf : (q.1 == k) = false := Bool.eq_false_iff.mpr hq
      simp only [List.map_cons, hqf, Bool.false_eq_true, if_false, List.find?, hqf]
      exact ih h'

/-- The overwrite image leaves lookups under other keys unchanged. -/
theorem find?_map_set_other (k k' : Str) (v : List LessonContent) (hk : (k == k') = false) :
    ∀ d : ContentDict,
      (d.map (fun p => if p.1 == k then (k, v) else p)).find? (fun p => p.1 == k') =
        d.find? (fun p => p.1 == k') := by
  intro d
  induction d with
  | nil => rfl
  | cons q d' ih =>
    by_cases hq : (q.1 == k) = true
    · have hql : q.1 = k := by simpa using hq
      have hq' : (q.1 == k') = false := by rw [hql]; exact hk
      simp only [List.map_cons, hq, if_true, List.find?, hk, hq']
      exact ih
    · have hqf : (q.1 == k) = false := Bool.eq_false_iff.mpr hq
      simp only [List.map_cons, hqf, Bool.false_eq_true, if_false, List.find?]
      cases hq' : (q.1 == k') with
      | true => rfl
      | false => exact ih

theorem pyGet_pySet_self (d : ContentDict) (k : Str) (v : List LessonContent) :
    pyGet (pySet d k v) k = some v := by
  unfold pyGet pySet
  by_cases h : d.any (fun p => p.1 == k) = true
  · rw [if_pos h, find?_map_set k v d h]
    rfl
  · rw [if_neg h, List.find?_append]
    have hnone : d.find? (fun p => p.1 == k) = none := by
      rw [List.find?_eq_none]
      intro p hp hpk
      exact h (List.any_eq_true.mpr ⟨p, hp, hpk⟩)
    rw [hnone]
    simp [List.find?]

theorem pyGet_pySet_other (d : ContentDict) (k k' : Str) (v : List LessonContent)
    (hk : k ≠ k') : pyGet (pySet d k v) k' = pyGet d k' := by
  have hkb : (k == k') = false := by simpa using hk
  unfold pyGet pySet
  by_cases h : d.any (fun p => p.1 == k) = true
  · rw [if_pos h, find?_map_set_other k k' v hkb d]
  · rw [if_neg h, List.find?_append]
    simp [List.find?, hkb]

/-- Appending to the freshly reset entry extends its list. -/
theorem map_append_set (k : Str) (l : List LessonContent) (x : LessonContent) :
    ∀ d : ContentDict,
      pyAppendAt (d.map (fun p => if p.1 == k then (k, l) else p)) k x =
        d.map (fun p => if p.1 == k then (k, l ++ [x]) else p) := by
  intro d
  induction d with
  | nil => rfl
  | cons q d' ih =>
    by_cases hq : (q.1 == k) = true
    · simp only [List.map_cons, hq, if_true, pyAppendAt, List.map_cons]
      rw [show (((k, l) : Str × List LessonContent).1 == k) = true by simp]
      simp only [if_true]
      unfold pyAppendAt at ih
      rw [ih]
    · have hqf : (q.1 == k) = false := Bool.eq_false_iff.mpr hq
      simp only [List.map_cons, hqf, Bool.false_eq_true, if_false, pyAppendAt, List.map_cons]
      unfold pyAppendAt at ih
      rw [ih]

/-- Appending under a key absent from the dict is the identity. -/
theorem pyAppendAt_absent (k : Str) (x : LessonContent) :
    ∀ d : ContentDict, (∀ p ∈ d, (p.1 == k) = false) → pyAppendAt d k x = d := by
  intro d
  induction d with
  | nil => intro _; rfl
  | cons q d' ih =>
    intro h
    have hq := h q (List.mem_cons_self q d')
    unfold pyAppendAt
    simp only [List.map_cons, hq, Bool.false_eq_true, if_false]
    unfold pyAppendAt at ih
    rw [ih (fun p hp => h p (List.mem_cons_of_mem q hp))]

theorem pyAppendAt_pySet (d : ContentDict) (k : Str) (l : List LessonContent)
    (x : LessonContent) : pyAppendAt (pySet d k l) k x = pySet d k (l ++ [x]) := by
  unfold pySet
  by_cases h : d.any (fun p => p.1 == k) = true
  · rw [if_pos h, if_pos h]
    exact map_append_set k l x d
  · rw [if_neg h, if_neg h]
    have hall : ∀ p ∈ d, (p.1 == k) = false := by
      intro p hp
      rw [Bool.eq_false_iff]
      intro hpk
      exact h (List.any_eq_true.mpr ⟨p, hp, hpk⟩)
    unfold pyAppendAt
    rw [List.map_append]
    rw [show (d.map (fun p => if p.1 == k then (p.1, p.2 ++ [x]) else p)) = d from ?_]
    · simp
    · have := pyAppendAt_absent k x d hall
      unfold pyAppendAt at this
      exact this

/-- The inner lesson loop extends the freshly reset entry one lesson at a
time. -/
theorem lessons_foldl_pySet (o : GenOracle) (rd : Option ResearchDict) (T : Str) :
    ∀ (ls : List LessonS) (d : ContentDict) (acc : List LessonContent),
      ls.foldl (fun d2 l => pyAppendAt d2 T (lesson_entry o rd T l.title)) (pySet d T acc) =
        pySet d T (acc ++ ls.map (fun l => lesson_entry o rd T l.title)) := by
  intro ls
  induction ls with
  | nil => intro d acc; simp
  | cons l ls' ih =>
    intro d acc
    rw [List.foldl_cons, pyAppendAt_pySet, ih]
    simp

/-- One pass of the per-module loop overwrites the dict entry for the
module title with the entries generated from its lessons, in order. -/
theorem module_content_eq (o : GenOracle) (rd : Option ResearchDict)
    (d : ContentDict) (m : ModuleS) :
    module_content o rd d m =
      pySet d m.title (m.lessons.map (fun l => lesson_entry o rd m.title l.title)) := by
  unfold module_content
  rw [lessons_foldl_pySet o rd m.title m.lessons d []]
  rfl

/-- Last-writer-wins: after the whole fan-out, the entry under a title is
the lesson list of the last module bearing that title. -/
theorem pyGet_content_foldl (o : GenOracle) (rd : Option ResearchDict) :
    ∀ (mods : List ModuleS) (d : ContentDict) (T : Str),
      pyGet (mods.foldl (module_content o rd) d) T =
        match mods.reverse.find? (fun x => x.title == T) with
        | some m2 => some (m2.lessons.map (fun l => lesson_entry o rd m2.title l.title))
        | none => pyGet d T := by
  intro mods
  induction mods with
  | nil => intro d T; rfl
  | cons m rest ih =>
    intro d T
    rw [List.foldl_cons, ih, List.reverse_cons, List.find?_append]
    cases hf : rest.reverse.find? (fun x => x.title == T) with
    | some m2 => rfl
    | none =>
      simp only [Option.none_or]
      rw [module_content_eq]
      by_cases hT : m.title = T
      · subst hT
        rw [pyGet_pySet_self]
        simp [List.find?]
      · rw [pyGet_pySet_other d m.title T _ hT]
        have hTb : (m.title == T) = false := by simpa using hT
        simp [List.find?, hTb]

/-- The entry of the fan-out dict under the title of any structure module. -/
theorem pyGet_content_dict (o : GenOracle) (rd : Option ResearchDict)
    (cs : CourseStructure) (T : Str) :
    pyGet (content_dict o rd cs) T =
      match cs.modules.reverse.find? (fun x => x.title == T) with
      | some m2 => some (m2.lessons.map (fun l => lesson_entry o rd m2.title l.title))
      | none => none := by
  unfold content_dict
  rw [pyGet_content_foldl]
  cases cs.modules.reverse.find? (fun x => x.title == T) with
  | some m2 => rfl
  | none => rfl

theorem length_pySet_ge (d : ContentDict) (k : Str) (v : List LessonContent) :
    d.length ≤ (pySet d k v).length := by
  unfold pySet
  by_cases h : d.any (fun p => p.1 == k) = true
  · rw [if_pos h, List.length_map]
  · rw [if_neg h, List.length_append]
    simp

theorem length_module_content_ge (o : GenOracle) (rd : Option ResearchDict)
    (d : ContentDict) (m : ModuleS) :
    d.length ≤ (module_content o rd d m).length := by
  rw [module_content_eq]
  exact length_pySet_ge d m.title _

theorem length_content_foldl_ge (o : GenOracle) (rd : Option ResearchDict) :
    ∀ (mods : List ModuleS) (d : ContentDict),
      d.length ≤ (mods.foldl (module_content o rd) d).length := by
  intro mods
  induction mods with
  | nil => intro d; exact le_refl _
  | cons m rest ih =>
    intro d
    exact le_trans (length_module_content_ge o rd d m) (ih (module_content o rd d m))

/-- A structure with at least one module yields a non-empty (truthy)
content dict. -/
theorem content_dict_ne_nil (o : GenOracle) (rd : Option ResearchDict)
    (cs : CourseStructure) (h : cs.modules ≠ []) :
    content_dict o rd cs ≠ [] := by
  unfold content_dict
  cases hm : cs.modules with
  | nil => exact absurd hm h
  | cons m rest =>
    intro hnil
    have h1 : 1 ≤ (module_content o rd [] m).length := by
      rw [module_content_eq]
      unfold pySet
      simp [List.any]
    have h2 := length_content_foldl_ge o rd rest (module_content o rd [] m)
    rw [List.foldl_cons] at hnil
    rw [hnil, List.length_nil] at h2
    omega

/-- C10: when the course structure contains two modules with equal titles,
the fan-out dict (keyed by module title, reset at the start of each
module) retains only the lessons generated for the last module with that
title, and after Finalize every final module is built by title lookup, so
equal-titled modules of the final course carry identical lesson lists. -/
theorem claim_C10 (o : GenOracle) (st : AgentState) (cs : CourseStructure)
    (hcs : st.course_structure = some cs)
    (mi mj : ModuleS) (hmi : mi ∈ cs.modules) (_hmj : mj ∈ cs.modules)
    (_heq : mi.title = mj.title) :
    (generate_course_content o st).1.content_data =
      some (content_dict o st.research_data cs) ∧
    (∃ mlast, cs.modules.reverse.find? (fun x => x.title == mi.title) = some mlast ∧
      mlast.title = mi.title ∧
      pyGet (content_dict o st.research_data cs) mi.title =
        some (mlast.lessons.map (fun l =>
          lesson_entry o st.research_data mlast.title l.title))) ∧
    (∀ fc, (finalize_course (generate_course_content o st).1).final_course = some fc →
      fc.modules = cs.modules.map (fun m =>
        { title := m.title
          lessons := (pyGet (content_dict o st.research_data cs) m.title).getD [] }) ∧
      ∀ fmi fmj, fmi ∈ fc.modules → fmj ∈ fc.modules → fmi.title = fmj.title →
        fmi.lessons = fmj.lessons) := by
  have hcd : (generate_course_content o st).1.content_data =
      some (content_dict o st.research_data cs) := by
    simp only [generate_course_content, hcs]
  refine ⟨hcd, ?_, ?_⟩
  · have hsome : (cs.modules.reverse.find? (fun x => x.title == mi.title)).isSome := by
      rw [List.find?_isSome]
      exact ⟨mi, List.mem_reverse.mpr hmi, by simp⟩
    obtain ⟨mlast, hml⟩ := Option.isSome_iff_exists.mp hsome
    have hteq : mlast.title = mi.title := by
      have := List.find?_some hml
      simpa using this
    refine ⟨mlast, hml, hteq, ?_⟩
    rw [pyGet_content_dict, hml]
  · intro fc hfc
    have hcs2 : (generate_course_content o st).1.course_structure = some cs := by
      simp only [generate_course_content, hcs]
    have hmodsne : cs.modules ≠ [] := by
      intro h
      rw [h] at hmi
      cases hmi
    have hsucc := finalize_course_success (generate_course_content o st).1 cs _ hcs2 hcd
      (content_dict_ne_nil o st.research_data cs hmodsne)
    rw [hsucc.2] at hfc
    have hfce := Option.some_inj.mp hfc
    subst hfce
    refine ⟨rfl, ?_⟩
    intro fmi fmj h1 h2 he
    simp only at h1 h2
    obtain ⟨m1, hm1, hfm1⟩ := List.mem_map.mp h1
    obtain ⟨m2, hm2, hfm2⟩ := List.mem_map.mp h2
    have e1 : fmi.lessons =
        (pyGet (content_dict o st.research_data cs) fmi.title).getD [] := by
      rw [← hfm1]
    have e2 : fmj.lessons =
        (pyGet (content_dict o st.research_data cs) fmj.title).getD [] := by
      rw [← hfm2]
    rw [e1, e2, he]

/-- Witness for C10: with two modules titled `A`, the dict keeps only the
second module entries, so lesson `X` of the first module is gone. -/
theorem claim_C10_witness :
    ((⟨ts "A", [⟨ts "X", []⟩]⟩ : ModuleS) ∈ c10CS.modules) ∧
    pyGet (content_dict c10Oracle c10State.research_data c10CS) (ts "A") =
      some [{ title := ts "Y", content := ts "Body for Y", resources := [ts "R1"] }] := by
  refine ⟨by decide, ?_⟩
  obtain ⟨mlast, hml, hteq, hget⟩ := (claim_C10 c10Oracle c10State c10CS rfl
    ⟨ts "A", [⟨ts "X", []⟩]⟩ ⟨ts "A", [⟨ts "Y", []⟩]⟩ (by decide) (by decide) rfl).2.1
  have hfind : c10CS.modules.reverse.find?
      (fun x => x.title == (⟨ts "A", [⟨ts "X", []⟩]⟩ : ModuleS).title) =
      some ⟨ts "A", [⟨ts "Y", []⟩]⟩ := by decide
  rw [hfind] at hml
  have hm := (Option.some_inj.mp hml)
  subst hm
  rw [hget]
  decide

/-- With pairwise-distinct module titles, the last module bearing a title
is the module itself. -/
theorem find?_reverse_of_nodup :
    ∀ (mods : List ModuleS), (mods.map (fun m => m.title)).Nodup →
      ∀ m ∈ mods, mods.reverse.find? (fun x => x.title == m.title) = some m := by
  intro mods
  induction mods with
  | nil => intro _ m hm; cases hm
  | cons h rest ih =>
    intro hnd m hm
    rw [List.map_cons] at hnd
    obtain ⟨hnotin, hnd2⟩ := List.nodup_cons.mp hnd
    rw [List.reverse_cons, List.find?_append]
    rcases List.mem_cons.mp hm with rfl | hm2
    · have hnone : rest.reverse.find? (fun x => x.title == m.title) = none := by
        rw [List.find?_eq_none]
        intro x hx hpx
        exact hnotin (List.mem_map.mpr ⟨x, List.mem_reverse.mp hx, by simpa using hpx⟩)
      rw [hnone]
      simp [List.find?]
    · rw [ih hnd2 m hm2]
      rfl

/-- C2 counterexample: with two modules both titled `A`, the generation
call raises for exactly one lesson (`X`, in the first module), yet the
resulting `content_data` holds no entry at all for the failing lesson —
the second module reset the shared key, so the diagnostic entry with
empty resources promised by the claim does not exist, and the first
module entry is gone rather than unchanged. -/
theorem claim_C2_counterexample :
    c2Oracle.genContent (ts "A") (ts "X") = .error (ts "boom") ∧
    c2Oracle.genContent (ts "A") (ts "Y") =
      .ok (ts "CONTENT:\nBody\n\nRESOURCES:\nR1") ∧
    content_dict c2Oracle c10State.research_data c10CS =
      [(ts "A", [{ title := ts "Y", content := ts "Body", resources := [ts "R1"] }])] := by
  refine ⟨by decide, by decide, by decide⟩

/-- C2 (amended): in the Content stage fan-out over a structure whose
module titles are pairwise distinct, with research data present, if the
per-lesson generation call raises for exactly one lesson then the stage
sets no error, every module keeps one `content_data` entry per lesson in
order — the failing lesson converted in place into an entry with a
non-empty diagnostic content and empty resources, every other lesson
parsed from its successful call unchanged — and the request still
succeeds: Finalize returns a final course and no error. -/
theorem claim_C2 (o : GenOracle) (st : AgentState) (cs : CourseStructure)
    (hcs : st.course_structure = some cs)
    (hnd : (cs.modules.map (fun m => m.title)).Nodup)
    (rdd : ResearchDict) (hrd : st.research_data = some rdd)
    (bm bl err : Str) (mk : ModuleS) (hmk : mk ∈ cs.modules) (_hbm : mk.title = bm)
    (_hbl : (mk.lessons.map (fun l => l.title)).count bl = 1)
    (hfail : o.genContent bm bl = .error err)
    (ok : Str → Str → Str)
    (hok : ∀ m ∈ cs.modules, ∀ l ∈ m.lessons, ¬(m.title = bm ∧ l.title = bl) →
      o.genContent m.title l.title = .ok (ok m.title l.title)) :
    (generate_course_content o st).1.error = none ∧
    (∀ m ∈ cs.modules, pyGet (content_dict o st.research_data cs) m.title =
      some (m.lessons.map (fun l =>
        if m.title = bm ∧ l.title = bl then
          { title := l.title
            content := ts "Error generating content: " ++ err
            resources := [] }
        else
          { title := l.title
            content := (parse_content_result (ok m.title l.title)).content
            resources := (parse_content_result (ok m.title l.title)).resources }))) ∧
    ts "Error generating content: " ++ err ≠ [] ∧
    (finalize_course (generate_course_content o st).1).error = none ∧
    ((finalize_course (generate_course_content o st).1).final_course).isSome := by
  have herr : (generate_course_content o st).1.error = none := by
    simp only [generate_course_content, hcs]
  have hcd : (generate_course_content o st).1.content_data =
      some (content_dict o st.research_data cs) := by
    simp only [generate_course_content, hcs]
  have hentries : ∀ m ∈ cs.modules,
      pyGet (content_dict o st.research_data cs) m.title =
        some (m.lessons.map (fun l =>
          if m.title = bm ∧ l.title = bl then
            { title := l.title
              content := ts "Error generating content: " ++ err
              resources := [] }
          else
            { title := l.title
              content := (parse_content_result (ok m.title l.title)).content
              resources := (parse_content_result (ok m.title l.title)).resources })) := by
    intro m hm
    rw [pyGet_content_dict, find?_reverse_of_nodup cs.modules hnd m hm]
    show some (m.lessons.map (fun l =>
      lesson_entry o st.research_data m.title l.title)) = _
    congr 1
    apply List.map_congr_left
    intro l hl
    simp only [lesson_entry, generate_lesson_content, hrd]
    by_cases hfb : m.title = bm ∧ l.title = bl
    · have hge : o.genContent m.title l.title = .error err := by
        rw [hfb.1, hfb.2]
        exact hfail
      rw [hge, if_pos hfb]
      rfl
    · rw [hok m hm l hl hfb, if_neg hfb]
      rfl
  refine ⟨herr, hentries, by simp [ts], ?_, ?_⟩
  · have hcs2 : (generate_course_content o st).1.course_structure = some cs := by
      simp only [generate_course_content, hcs]
    have hne : cs.modules ≠ [] := by
      intro h
      rw [h] at hmk
      cases hmk
    exact (finalize_course_success _ cs _ hcs2 hcd
      (content_dict_ne_nil o st.research_data cs hne)).1
  · have hcs2 : (generate_course_content o st).1.course_structure = some cs := by
      simp only [generate_course_content, hcs]
    have hne : cs.modules ≠ [] := by
      intro h
      rw [h] at hmk
      cases hmk
    rw [(finalize_course_success _ cs _ hcs2 hcd
      (content_dict_ne_nil o st.research_data cs hne)).2]
    rfl

/-- Witness for C2: module `M1` keeps lesson `L1` parsed and lesson `L2`
as the diagnostic entry, module `M2` is untouched, and the request
finishes with a final course. -/
theorem claim_C2_witness :
    (c2wCS.modules.map (fun m => m.title)).Nodup ∧
    pyGet (content_dict c2wOracle c2wState.research_data c2wCS) (ts "M1") =
      some [{ title := ts "L1", content := ts "Body", resources := [ts "R1"] },
        { title := ts "L2", content := ts "Error generating content: boom",
          resources := [] }] ∧
    pyGet (content_dict c2wOracle c2wState.research_data c2wCS) (ts "M2") =
      some [{ title := ts "L3", content := ts "Body", resources := [ts "R1"] }] ∧
    ((finalize_course (generate_course_content c2wOracle c2wState).1).final_course).isSome := by
  have h := claim_C2 c2wOracle c2wState c2wCS rfl (by decide)
    _ rfl (ts "M1") (ts "L2") (ts "boom")
    ⟨ts "M1", [⟨ts "L1", []⟩, ⟨ts "L2", []⟩]⟩ (by decide) rfl (by decide)
    (by decide) (fun _ _ => ts "CONTENT:\nBody\n\nRESOURCES:\nR1") (by decide)
  refine ⟨by decide, ?_, ?_, h.2.2.2.2⟩
  · have h1 := h.2.1 ⟨ts "M1", [⟨ts "L1", []⟩, ⟨ts "L2", []⟩]⟩ (by decide)
    rw [h1]
    decide
  · have h2 := h.2.1 ⟨ts "M2", [⟨ts "L3", []⟩]⟩ (by decide)
    rw [h2]
    decide

/-- The part before the first occurrence is occurrence-free. -/
theorem splitFirstGo_not_infix_left {sep : Str} (hsep : sep ≠ []) :
    ∀ {s a b : Str}, splitFirstGo sep s = some (a, b) → ¬ sep <:+: a := by
  intro s
  induction s with
  | nil => intro a b h; cases h
  | cons c rest ih =>
    intro a b h
    by_cases hpre : sep.isPrefixOf (c :: rest) = true
    · simp only [splitFirstGo] at h
      rw [if_pos hpre] at h
      have ha : a = [] := by
        cases h
        rfl
      subst ha
      intro hinf
      exact hsep (List.eq_nil_of_infix_nil hinf)
    · simp only [splitFirstGo] at h
      rw [if_neg hpre] at h
      cases hfg : splitFirstGo sep rest with
      | none => rw [hfg] at h; cases h
      | some p =>
        rw [hfg] at h
        have ha : a = c :: p.1 ∧ b = p.2 := by
          cases h
          exact ⟨rfl, rfl⟩
        obtain ⟨ha, hb⟩ := ha
        subst ha
        intro hinf
        rcases List.infix_cons_iff.mp hinf with hp | hi
        · -- sep would be a prefix of c :: p.1, hence of c :: rest
          have hrest : rest = p.1 ++ sep ++ p.2 := splitFirstGo_eq_some hfg
          have : sep <+: c :: rest := by
            rcases hp with ⟨tl, htl⟩
            refine ⟨tl ++ sep ++ p.2, ?_⟩
            rw [← List.append_assoc, ← List.append_assoc, htl, hrest]
            simp
          exact hpre (List.isPrefixOf_iff_prefix.mpr this)
        · exact ih (a := p.1) (b := p.2) (by rw [hfg]) hi

/-- The colon test of the parser agrees with colon containment. -/
theorem pySplitOnce_length_iff (line : Str) :
    1 < (pySplitOnce (ts ":") line).length ↔ pyContains (ts ":") line = true := by
  unfold pySplitOnce
  cases hfg : splitFirstGo (ts ":") line with
  | none =>
    simp only [List.length_singleton]
    constructor
    · intro h; omega
    · intro h
      exact absurd ((splitFirstGo_eq_none_iff (by decide) line).mp hfg)
        (by simpa using pyContains_iff.mp h)
  | some p =>
    simp only [List.length_cons, List.length_singleton]
    constructor
    · intro _
      rw [pyContains_iff]
      have hdec := @splitFirstGo_eq_some (ts ":") line p.1 p.2 (by rw [hfg])
      rw [hdec]
      exact ⟨p.1, p.2, by simp⟩
    · intro _; omega

/-- `parse_lesson_line` restated with the claim-side title rule. -/
theorem parse_lesson_line_eq (raw : Str) :
    parse_lesson_line raw =
      (if pyStartsWith (ts "- Lesson ") (pyStrip raw) ||
          pyStartsWith (ts "- ") (pyStrip raw) then
        some { title := specC4LessonTitle (pyStrip raw), content := ([] : Str) }
      else none) := by
  unfold parse_lesson_line specC4LessonTitle
  by_cases hd : (pyStartsWith (ts "- Lesson ") (pyStrip raw) ||
      pyStartsWith (ts "- ") (pyStrip raw)) = true
  · rw [if_pos hd, if_pos hd]
    by_cases hc : pyContains (ts ":") (pyStrip raw) = true
    · rw [if_pos ((pySplitOnce_length_iff (pyStrip raw)).mpr hc), if_pos hc]
    · rw [if_neg (fun h => hc ((pySplitOnce_length_iff (pyStrip raw)).mp h)), if_neg hc]
  · rw [if_neg hd, if_neg hd]

/-- Folding the lesson loop equals `filterMap parse_lesson_line`. -/
theorem foldl_lesson_fold_step :
    ∀ (l : List Str) (acc : List LessonS),
      l.foldl lesson_fold_step acc = acc ++ l.filterMap parse_lesson_line := by
  intro l
  induction l with
  | nil => intro acc; simp
  | cons a l2 ih =>
    intro acc
    rw [List.foldl_cons, List.filterMap_cons]
    cases hfa : parse_lesson_line a with
    | none =>
      rw [show lesson_fold_step acc a = acc from by
        unfold lesson_fold_step
        rw [hfa]]
      rw [ih]
    | some b =>
      rw [show lesson_fold_step acc a = acc ++ [b] from by
        unfold lesson_fold_step
        rw [hfa]]
      rw [ih]
      simp

/-- `parse_module_block` in closed form. -/
theorem parse_module_block_eq (s : Str) :
    parse_module_block s =
      { title := pyStrip ((pySplit (ts "\n") s).getD 0 [])
        lessons := ((pySplit (ts "\n") s).drop 1).filterMap parse_lesson_line } := by
  show ({ title := pyStrip ((pySplit (ts "\n") s).getD 0 [])
          lessons := ((pySplit (ts "\n") s).drop 1).foldl lesson_fold_step [] } :
      ModuleS) = _
  congr 1
  exact foldl_lesson_fold_step ((pySplit (ts "\n") s).drop 1) []

theorem structure_step_modules (acc : CourseStructure) (sec : Str) :
    (structure_step acc sec).modules =
      acc.modules ++ (structure_section_module sec).toList := by
  simp only [structure_step, structure_section_module]
  split_ifs <;> simp

/-- The modules produced by the fold, in encounter order. -/
theorem structure_foldl_modules :
    ∀ (secs : List Str) (acc : CourseStructure),
      (secs.foldl structure_step acc).modules =
        acc.modules ++ secs.filterMap structure_section_module := by
  intro secs
  induction secs with
  | nil => intro acc; simp
  | cons sec rest ih =>
    intro acc
    rw [List.foldl_cons, List.filterMap_cons, ih, structure_step_modules]
    cases structure_section_module sec with
    | none => simp
    | some m => simp

/-- Pointwise description turns `filterMap` into `map` after `filter`. -/
theorem filterMap_eq_map_filter {α β : Type} (f : α → Option β) (p : α → Bool)
    (g : α → β) :
    ∀ l : List α, (∀ x ∈ l, f x = if p x then some (g x) else none) →
      l.filterMap f = (l.filter p).map g := by
  intro l
  induction l with
  | nil => intro _; rfl
  | cons a l2 ih =>
    intro h
    rw [List.filterMap_cons, List.filter_cons]
    have ha := h a (List.mem_cons_self a l2)
    by_cases hp : p a = true
    · rw [ha, if_pos hp, if_pos hp, List.map_cons,
        ih (fun x hx => h x (List.mem_cons_of_mem a hx))]
    · have hp2 : p a = false := Bool.eq_false_iff.mpr hp
      rw [ha, if_neg hp, if_neg (by rw [hp2]; decide),
        ih (fun x hx => h x (List.mem_cons_of_mem a hx))]

/-- C4 counterexample: a structure text that is a single block whose first
line begins with `MODULE ` and which contains one lesson line, yet
parsing yields zero modules — the block also contains the literal
`COURSE TITLE:`, which the dispatch chain tests first. -/
theorem claim_C4_counterexample :
    pySplit (ts "\n\n") (ts "MODULE 1: COURSE TITLE: Oops\n- Lesson 1.1: X") =
      [ts "MODULE 1: COURSE TITLE: Oops\n- Lesson 1.1: X"] ∧
    pyStartsWith (ts "MODULE ") (ts "MODULE 1: COURSE TITLE: Oops\n- Lesson 1.1: X") = true ∧
    (parse_structure_result (ts "MODULE 1: COURSE TITLE: Oops\n- Lesson 1.1: X")).modules =
      [] := by
  refine ⟨by decide, by decide, by decide⟩

/-- C4 (amended): for every structure text whose `MODULE `-starting
blank-line blocks contain none of the three course-level markers, the
modules are exactly those blocks in encounter order; each module title is
the trimmed first line of the trimmed block (the `MODULE N:` prefix
retained), and the lessons are exactly the trimmed lines after the first
that start with a dash, titled by the claim rule (text after the first
colon when a colon is present, else the line with the leading dash
removed, trimmed).  The second conjunct makes `after the first colon`
precise. -/
theorem claim_C4 (t : Str)
    (hclean : ∀ sec ∈ pySplit (ts "\n\n") t,
      pyStartsWith (ts "MODULE ") (pyStrip sec) = true →
      pyContains (ts "COURSE TITLE:") (pyStrip sec) = false ∧
      pyContains (ts "COURSE DESCRIPTION:") (pyStrip sec) = false ∧
      pyContains (ts "RATIONALE:") (pyStrip sec) = false) :
    (parse_structure_result t).modules =
      ((pySplit (ts "\n\n") t).filter
        (fun sec => pyStartsWith (ts "MODULE ") (pyStrip sec))).map
        (fun sec =>
          { title := pyStrip ((pySplit (ts "\n") (pyStrip sec)).getD 0 [])
            lessons := ((pySplit (ts "\n") (pyStrip sec)).drop 1).filterMap
              (fun raw =>
                if pyStartsWith (ts "- Lesson ") (pyStrip raw) ||
                    pyStartsWith (ts "- ") (pyStrip raw) then
                  some { title := specC4LessonTitle (pyStrip raw), content := ([] : Str) }
                else none) }) ∧
    (∀ line : Str, pyContains (ts ":") line = true →
      ∃ a b, line = a ++ ts ":" ++ b ∧ pyContains (ts ":") a = false ∧
        specC4LessonTitle line = pyStrip b) := by
  constructor
  · unfold parse_structure_result
    rw [structure_foldl_modules (pySplit (ts "\n\n") t) ⟨[], [], [], []⟩]
    rw [List.nil_append]
    apply filterMap_eq_map_filter
    intro sec hsec
    by_cases hp : pyStartsWith (ts "MODULE ") (pyStrip sec) = true
    · obtain ⟨h1, h2, h3⟩ := hclean sec hsec hp
      rw [if_pos hp]
      unfold structure_section_module
      rw [if_neg (by rw [h1]; decide), if_neg (by rw [h2]; decide),
        if_neg (by rw [h3]; decide), if_pos hp]
      rw [parse_module_block_eq]
      congr 2
      apply List.filterMap_congr
      intro raw _
      rw [parse_lesson_line_eq]
    · have hp2 : pyStartsWith (ts "MODULE ") (pyStrip sec) = false :=
        Bool.eq_false_iff.mpr hp
      rw [if_neg (by rw [hp2]; decide)]
      unfold structure_section_module
      split_ifs <;> simp_all
  · intro line hc
    cases hfg : splitFirstGo (ts ":") line with
    | none =>
      exact absurd ((splitFirstGo_eq_none_iff (by decide) line).mp hfg)
        (by simpa using pyContains_iff.mp hc)
    | some p =>
      refine ⟨p.1, p.2, ?_, ?_, ?_⟩
      · exact splitFirstGo_eq_some (by rw [hfg])
      · rw [pyContains_false_iff]
        exact splitFirstGo_not_infix_left (by decide) (by rw [hfg])
      · unfold specC4LessonTitle
        rw [if_pos hc]
        unfold pySplitOnce
        rw [hfg]
        rfl

/-- Witness for C4: two module blocks produce two modules in order with
the expected titles and lesson titles. -/
theorem claim_C4_witness :
    (∀ sec ∈ pySplit (ts "\n\n") c4Text,
      pyStartsWith (ts "MODULE ") (pyStrip sec) = true →
      pyContains (ts "COURSE TITLE:") (pyStrip sec) = false ∧
      pyContains (ts "COURSE DESCRIPTION:") (pyStrip sec) = false ∧
      pyContains (ts "RATIONALE:") (pyStrip sec) = false) ∧
    (parse_structure_result c4Text).modules =
      [{ title := ts "MODULE 1: Basics"
         lessons := [{ title := ts "Intro", content := [] },
           { title := ts "More", content := [] }] },
       { title := ts "MODULE 2: Advanced"
         lessons := [{ title := ts "Deep dive", content := [] }] }] := by
  refine ⟨by decide, ?_⟩
  rw [(claim_C4 c4Text (by decide)).1]
  decide

/-- A recognised block sets its field and opens its section. -/
theorem research_step_of_kind (rd : ResearchData) (cur : Option RSection) (sec : Str)
    (k : RSection) (h : rKind sec = some k) :
    research_step (rd, cur) sec = (setRField k sec rd, some k) := by
  unfold rKind at h
  split_ifs at h with g1 g2 g3 g4
  · injection h with h2
    subst h2
    simp only [rHeader] at g1
    simp only [research_step]
    rw [if_pos g1]
    rfl
  · injection h with h2
    subst h2
    simp only [rHeader] at g1 g2
    simp only [research_step]
    rw [if_neg g1, if_pos g2]
    rfl
  · injection h with h2
    subst h2
    simp only [rHeader] at g1 g2 g3
    simp only [research_step]
    rw [if_neg g1, if_neg g2, if_pos g3]
    rfl
  · injection h with h2
    subst h2
    simp only [rHeader] at g1 g2 g3 g4
    simp only [research_step]
    rw [if_neg g1, if_neg g2, if_neg g3, if_pos g4]
    rfl

/-- A block made of one header and a body free of the other headers is
recognised as that header. -/
theorem rKind_block (k : RSection) (b : Str)
    (hother : ∀ j, j ≠ k → pyContains (rHeader j) (rHeader k ++ b) = false) :
    rKind (rHeader k ++ b) = some k := by
  have hown : pyContains (rHeader k) (rHeader k ++ b) = true :=
    pyContains_iff.mpr (List.prefix_append _ _).isInfix
  cases k with
  | summary =>
    unfold rKind
    rw [if_pos hown]
  | key_concepts =>
    unfold rKind
    rw [if_neg (by rw [hother RSection.summary (by decide)]; decide), if_pos hown]
  | resources =>
    unfold rKind
    rw [if_neg (by rw [hother RSection.summary (by decide)]; decide),
      if_neg (by rw [hother RSection.key_concepts (by decide)]; decide), if_pos hown]
  | insights =>
    unfold rKind
    rw [if_neg (by rw [hother RSection.summary (by decide)]; decide),
      if_neg (by rw [hother RSection.key_concepts (by decide)]; decide),
      if_neg (by rw [hother RSection.resources (by decide)]; decide), if_pos hown]

/-- Over recognised blocks the parser fold is the pure field-setter fold. -/
theorem fold_recognized :
    ∀ (assign : List (RSection × Str)) (rd : ResearchData) (cur : Option RSection),
      (∀ p ∈ assign, rKind (rHeader p.1 ++ p.2) = some p.1) →
      ∃ cur2, (assign.map (fun p => rHeader p.1 ++ p.2)).foldl research_step (rd, cur) =
        (assign.foldl (fun rd2 p => setRField p.1 (rHeader p.1 ++ p.2) rd2) rd, cur2) := by
  intro assign
  induction assign with
  | nil => intro rd cur _; exact ⟨cur, rfl⟩
  | cons q rest ih =>
    intro rd cur hk
    rw [List.map_cons, List.foldl_cons, List.foldl_cons,
      research_step_of_kind rd cur _ q.1 (hk q (List.mem_cons_self q rest))]
    exact ih (setRField q.1 (rHeader q.1 ++ q.2) rd) (some q.1)
      (fun p hp => hk p (List.mem_cons_of_mem q hp))

/-- Setters of other kinds preserve an observation. -/
theorem setter_fold_preserve {α : Type} (get : ResearchData → α) (k0 : RSection)
    (hother : ∀ (k : RSection) (sec : Str) (rd : ResearchData), k ≠ k0 →
      get (setRField k sec rd) = get rd) :
    ∀ (assign : List (RSection × Str)) (rd : ResearchData),
      (∀ p ∈ assign, p.1 ≠ k0) →
      get (assign.foldl (fun rd2 p => setRField p.1 (rHeader p.1 ++ p.2) rd2) rd) =
        get rd := by
  intro assign
  induction assign with
  | nil => intro rd _; rfl
  | cons q rest ih =>
    intro rd h
    rw [List.foldl_cons,
      ih _ (fun p hp => h p (List.mem_cons_of_mem q hp)),
      hother q.1 _ rd (h q (List.mem_cons_self q rest))]

/-- With each kind occurring at most once, the field of kind `k0` after
the setter fold is the value computed from its unique block. -/
theorem setter_fold {α : Type} (get : ResearchData → α) (k0 : RSection) (v : Str → α)
    (hother : ∀ (k : RSection) (sec : Str) (rd : ResearchData), k ≠ k0 →
      get (setRField k sec rd) = get rd)
    (hself : ∀ (sec : Str) (rd : ResearchData), get (setRField k0 sec rd) = v sec) :
    ∀ (assign : List (RSection × Str)) (rd : ResearchData),
      (assign.map Prod.fst).Nodup →
      ∀ b0, (k0, b0) ∈ assign →
        get (assign.foldl (fun rd2 p => setRField p.1 (rHeader p.1 ++ p.2) rd2) rd) =
          v (rHeader k0 ++ b0) := by
  intro assign
  induction assign with
  | nil => intro rd _ b0 h; cases h
  | cons q rest ih =>
    intro rd hnd b0 hb0
    rw [List.map_cons] at hnd
    obtain ⟨hnotin, hnd2⟩ := List.nodup_cons.mp hnd
    rw [List.foldl_cons]
    rcases List.mem_cons.mp hb0 with heq | hmem
    · subst heq
      have hrest : ∀ p ∈ rest, p.1 ≠ (k0, b0).1 := by
        intro p hp hpk
        exact hnotin (List.mem_map.mpr ⟨p, hp, hpk⟩)
      rw [setter_fold_preserve get k0 hother rest _ hrest]
      exact hself _ _
    · exact ih (setRField q.1 (rHeader q.1 ++ q.2) rd) hnd2 b0 hmem

theorem pyCleanLines_strip (b : Str) : pyCleanLines (pyStrip b) = specC6Items b := by
  unfold pyCleanLines specC6Items
  rw [List.filter_map]
  rfl

theorem setRField_summary_other (k : RSection) (sec : Str) (rd : ResearchData)
    (h : k ≠ RSection.summary) : (setRField k sec rd).summary = rd.summary := by
  cases k with
  | summary => exact absurd rfl h
  | key_concepts => rfl
  | resources => rfl
  | insights => rfl

theorem setRField_kc_other (k : RSection) (sec : Str) (rd : ResearchData)
    (h : k ≠ RSection.key_concepts) : (setRField k sec rd).key_concepts = rd.key_concepts := by
  cases k with
  | summary => rfl
  | key_concepts => exact absurd rfl h
  | resources => rfl
  | insights => rfl

theorem setRField_res_other (k : RSection) (sec : Str) (rd : ResearchData)
    (h : k ≠ RSection.resources) : (setRField k sec rd).resources = rd.resources := by
  cases k with
  | summary => rfl
  | key_concepts => rfl
  | resources => exact absurd rfl h
  | insights => rfl

theorem setRField_ins_other (k : RSection) (sec : Str) (rd : ResearchData)
    (h : k ≠ RSection.insights) : (setRField k sec rd).insights = rd.insights := by
  cases k with
  | summary => rfl
  | key_concepts => rfl
  | resources => rfl
  | insights => exact absurd rfl h

/-- C6 counterexample: a research text containing all four recognised
headers whose summary body is empty — parsing yields an empty summary,
not a non-empty one. -/
theorem claim_C6_counterexample :
    pyContains (ts "RESEARCH SUMMARY:")
      (ts "RESEARCH SUMMARY:\n\nKEY CONCEPTS:\nA\n\nRESOURCES:\nR1\n\nINSIGHTS:\nGreat") = true ∧
    pyContains (ts "KEY CONCEPTS:")
      (ts "RESEARCH SUMMARY:\n\nKEY CONCEPTS:\nA\n\nRESOURCES:\nR1\n\nINSIGHTS:\nGreat") = true ∧
    pyContains (ts "RESOURCES:")
      (ts "RESEARCH SUMMARY:\n\nKEY CONCEPTS:\nA\n\nRESOURCES:\nR1\n\nINSIGHTS:\nGreat") = true ∧
    pyContains (ts "INSIGHTS:")
      (ts "RESEARCH SUMMARY:\n\nKEY CONCEPTS:\nA\n\nRESOURCES:\nR1\n\nINSIGHTS:\nGreat") = true ∧
    (parse_research_result
      (ts "RESEARCH SUMMARY:\n\nKEY CONCEPTS:\nA\n\nRESOURCES:\nR1\n\nINSIGHTS:\nGreat")).summary =
      [] := by
  refine ⟨by decide, by decide, by decide, by decide, by decide⟩

/-- C6 (amended): for every research text whose blank-line blocks are, in
any order, exactly one block per recognised header — each block being the
header followed by a body containing no recognised header, and no block
containing another header — parsing yields summary and insights equal to
the trimmed body under their headers (non-empty whenever those trimmed
bodies are), and key-concepts and resources equal to exactly the
non-empty trimmed lines under their headers. -/
theorem claim_C6 (t : Str) (assign : List (RSection × Str))
    (hsecs : pySplit (ts "\n\n") t = assign.map (fun p => rHeader p.1 ++ p.2))
    (hperm : (assign.map Prod.fst).Perm
      [RSection.summary, RSection.key_concepts, RSection.resources, RSection.insights])
    (hfree : ∀ p ∈ assign, ∀ k : RSection, pyContains (rHeader k) p.2 = false)
    (hblock : ∀ p ∈ assign, ∀ k : RSection, k ≠ p.1 →
      pyContains (rHeader k) (rHeader p.1 ++ p.2) = false) :
    (∀ b, (RSection.summary, b) ∈ assign →
      (parse_research_result t).summary = pyStrip b ∧
      (pyStrip b ≠ [] → (parse_research_result t).summary ≠ [])) ∧
    (∀ b, (RSection.insights, b) ∈ assign →
      (parse_research_result t).insights = pyStrip b ∧
      (pyStrip b ≠ [] → (parse_research_result t).insights ≠ [])) ∧
    (∀ b, (RSection.key_concepts, b) ∈ assign →
      (parse_research_result t).key_concepts = specC6Items b) ∧
    (∀ b, (RSection.resources, b) ∈ assign →
      (parse_research_result t).resources = specC6Items b) := by
  have hnd : (assign.map Prod.fst).Nodup := hperm.symm.nodup (by decide)
  have hkind : ∀ p ∈ assign, rKind (rHeader p.1 ++ p.2) = some p.1 :=
    fun p hp => rKind_block p.1 p.2 (fun j hj => hblock p hp j hj)
  obtain ⟨cur2, hfold⟩ := fold_recognized assign ⟨[], [], [], []⟩ none hkind
  have hparse : parse_research_result t =
      (assign.foldl (fun rd2 p => setRField p.1 (rHeader p.1 ++ p.2) rd2)
        ⟨[], [], [], []⟩) := by
    unfold parse_research_result
    rw [hsecs, hfold]
  refine ⟨?_, ?_, ?_, ?_⟩
  · intro b hb
    have hv := setter_fold ResearchData.summary RSection.summary
      (fun sec => pyStrip (pyReplace (ts "RESEARCH SUMMARY:") [] sec))
      setRField_summary_other (fun _ _ => rfl) assign ⟨[], [], [], []⟩ hnd b hb
    have hrep : pyReplace (ts "RESEARCH SUMMARY:") []
        (rHeader RSection.summary ++ b) = b :=
      pyReplace_header (by decide) (hfree (RSection.summary, b) hb RSection.summary)
    rw [hparse, hv]
    simp only [hrep]
    exact ⟨trivial, fun h => h⟩
  · intro b hb
    have hv := setter_fold ResearchData.insights RSection.insights
      (fun sec => pyStrip (pyReplace (ts "INSIGHTS:") [] sec))
      setRField_ins_other (fun _ _ => rfl) assign ⟨[], [], [], []⟩ hnd b hb
    have hrep : pyReplace (ts "INSIGHTS:") [] (rHeader RSection.insights ++ b) = b :=
      pyReplace_header (by decide) (hfree (RSection.insights, b) hb RSection.insights)
    rw [hparse, hv]
    simp only [hrep]
    exact ⟨trivial, fun h => h⟩
  · intro b hb
    have hv := setter_fold ResearchData.key_concepts RSection.key_concepts
      (fun sec => pyCleanLines (pyStrip (pyReplace (ts "KEY CONCEPTS:") [] sec)))
      setRField_kc_other (fun _ _ => rfl) assign ⟨[], [], [], []⟩ hnd b hb
    have hrep : pyReplace (ts "KEY CONCEPTS:") []
        (rHeader RSection.key_concepts ++ b) = b :=
      pyReplace_header (by decide) (hfree (RSection.key_concepts, b) hb RSection.key_concepts)
    rw [hparse, hv]
    simp only [hrep]
    exact pyCleanLines_strip b
  · intro b hb
    have hv := setter_fold ResearchData.resources RSection.resources
      (fun sec => pyCleanLines (pyStrip (pyReplace (ts "RESOURCES:") [] sec)))
      setRField_res_other (fun _ _ => rfl) assign ⟨[], [], [], []⟩ hnd b hb
    have hrep : pyReplace (ts "RESOURCES:") [] (rHeader RSection.resources ++ b) = b :=
      pyReplace_header (by decide) (hfree (RSection.resources, b) hb RSection.resources)
    rw [hparse, hv]
    simp only [hrep]
    exact pyCleanLines_strip b

/-- Witness for C6 on a scrambled-order text with non-empty bodies. -/
theorem claim_C6_witness :
    pySplit (ts "\n\n") c6Text = c6Assign.map (fun p => rHeader p.1 ++ p.2) ∧
    (parse_research_result c6Text).summary = ts "The summary" ∧
    (parse_research_result c6Text).key_concepts = [ts "C1", ts "C2"] ∧
    (parse_research_result c6Text).resources = [ts "R1"] ∧
    (parse_research_result c6Text).insights = ts "Great insight" := by
  have h := claim_C6 c6Text c6Assign (by decide) (by decide) (by decide) (by decide)
  refine ⟨by decide, ?_, ?_, ?_, ?_⟩
  · rw [(h.1 (ts "\nThe summary") (by decide)).1]
    decide
  · rw [h.2.2.1 (ts "\nC1\nC2") (by decide)]
    decide
  · rw [h.2.2.2 (ts "\nR1") (by decide)]
    decide
  · rw [(h.2.1 (ts "\nGreat insight") (by decide)).1]
    decide
